import Mathlib

/-!
Verification of the nskit toolkit's core against its specification.

This file shallowly embeds the two core subsystems of the repository:

* `nsaex.py` — the NSA archive extractor's bit reader, LZSS decoder,
  SPB image decoder and the per-entry dispatcher
  (`detect_and_process_bmp`, `process_file_bytes`);
* `nslex.py` — the script container loader, config preamble parser,
  label indexer, tokenizer, expression evaluator and variable store.

Conventions used throughout:

* Python byte strings become `List Nat` (each element `< 256` where the
  source guarantees it), decoded text becomes `List Char`.
* Python exceptions become `Except` errors (`EOFError` of the bit reader
  is the error of `getBits`/`getU8`; `IndexError`, `SystemExit` raised by
  `Lexer._err`, and `AssertionError` are the constructors of `LexErr`).
* Unbounded `while` loops over a cursor that strictly advances are
  embedded with an explicit fuel argument; the "official" wrappers invoke
  them with a fuel that is large enough for the loop's progress measure
  (each loop iteration advances the cursor, or emits at least one output
  byte, so a fuel linear in the input size suffices).  Concrete
  evaluations below never exhaust the fuel.
* Wall-clock timeouts (`spb_to_bmp`'s `timeout_ms` deadline) have no
  shallow embedding; the decoder is modelled with the deadline absent
  (the `timeout_ms=None` code path), which takes the same branches as the
  timed path whenever the deadline does not fire.
-/

namespace Nskit

/-- ASCII fragment of Python's `str.lower` on one character (all strings
lowercased in this development are ASCII). -/
def lowerC (c : Char) : Char :=
  if 'A' ≤ c ∧ c ≤ 'Z' then Char.ofNat (c.toNat + 32) else c

/-- ASCII fragment of Python's `str.lower`. -/
def pyLower (s : String) : String := String.mk (s.data.map lowerC)

/-! ## nsaex.py — BitReader -/

/-- State of `nsaex.BitReader`: the byte slice (already restricted to the
`start` offset), the byte position, the bit accumulator and the number of
bits still available in the accumulator.  As in the source, `bitbuf` is
never masked; reads extract `(bitbuf >>> (rem - take)) &&& mask`. -/
structure BitSt where
  data : List Nat
  pos : Nat
  bitbuf : Nat
  rem : Nat
  deriving Repr, DecidableEq

/-- `BitReader(data, start)`: the memoryview `data[start:]`. -/
def mkBR (data : List Nat) (start : Nat) : BitSt :=
  { data := data.drop start, pos := 0, bitbuf := 0, rem := 0 }

/-- One-bit-at-a-time core of `BitReader.get_bits`.  The source consumes
`min(n, rem)` bits per iteration of its `while n > 0` loop; consuming one
bit at a time produces the same MSB-first value and the same final
`(pos, bitbuf, rem)` state, because a byte is loaded exactly when
`rem = 0`, and the error state on end-of-data is the state saved by the
source just before `raise EOFError`.  The error payload is the reader
state at the failure, which the source keeps in the (mutated) reader. -/
def getBitsAux : Nat → Nat → BitSt → Except BitSt (Nat × BitSt)
  | 0, v, st => .ok (v, st)
  | k + 1, v, st =>
    if st.rem = 0 then
      if st.pos ≥ st.data.length then .error st
      else
        let buf := (st.bitbuf <<< 8) ||| st.data.getD st.pos 0
        let st' : BitSt := { st with pos := st.pos + 1, bitbuf := buf, rem := 8 }
        getBitsAux k ((v <<< 1) ||| ((buf >>> 7) &&& 1)) { st' with rem := 7 }
    else
      getBitsAux k ((v <<< 1) ||| ((st.bitbuf >>> (st.rem - 1)) &&& 1))
        { st with rem := st.rem - 1 }

/-- `BitReader.get_bits(n)` (MSB-first). -/
def getBits (st : BitSt) (n : Nat) : Except BitSt (Nat × BitSt) :=
  getBitsAux n 0 st

/-- `BitReader.get_u8()`: byte-aligned fast path when `rem = 0` (which
does not touch `bitbuf`), otherwise `get_bits(8)`. -/
def getU8 (st : BitSt) : Except BitSt (Nat × BitSt) :=
  if st.rem = 0 then
    if st.pos ≥ st.data.length then .error st
    else .ok (st.data.getD st.pos 0, { st with pos := st.pos + 1 })
  else getBits st 8

/-! ## nsaex.py — LZSS decoder -/

/-- The back-reference copy loop of `lzss_decompress`: emit up to `cnt`
bytes `RING[(offset + idx) & 0xFF]`, storing each at the ring cursor and
stopping right after the output reaches `outSize`. -/
def lzssCopy : Nat → Nat → Nat → List Nat → Nat → Nat → List Nat →
    List Nat × Nat × List Nat
  | 0, _, _, ring, bufpos, _, out => (ring, bufpos, out)
  | cnt + 1, idx, offset, ring, bufpos, outSize, out =>
    let ch := ring.getD ((offset + idx) % 256) 0
    let ring' := ring.set bufpos ch
    let bufpos' := (bufpos + 1) % 256
    let out' := out ++ [ch]
    if out'.length ≥ outSize then (ring', bufpos', out')
    else lzssCopy cnt (idx + 1) offset ring' bufpos' outSize out'

/-- Main loop of `lzss_decompress`.  The `Bool` of the result records
whether the loop was aborted by the bit reader's end-of-data (the
source's `except EOFError: pass`).  Each productive iteration emits at
least one byte, so `fuel = outSize` (as supplied by `lzss_decompress`)
never runs out; the fuel-out case returns like the size-reached case. -/
def lzssLoop : Nat → BitSt → List Nat → Nat → Nat → List Nat → List Nat × Bool
  | fuel, br, ring, bufpos, outSize, out =>
    if out.length ≥ outSize then (out, false)
    else
      match fuel with
      | 0 => (out, false)
      | f + 1 =>
        match getBits br 1 with
        | .error _ => (out, true)
        | .ok (bit, br) =>
          if bit ≠ 0 then
            match getU8 br with
            | .error _ => (out, true)
            | .ok (ch, br) =>
              lzssLoop f br (ring.set bufpos ch) ((bufpos + 1) % 256) outSize
                (out ++ [ch])
          else
            match getU8 br with
            | .error _ => (out, true)
            | .ok (offset, br) =>
              match getBits br 4 with
              | .error _ => (out, true)
              | .ok (nn, br) =>
                match lzssCopy (nn + 2) 0 offset ring bufpos outSize out with
                | (ring, bufpos, out) => lzssLoop f br ring bufpos outSize out

/-- `nsaex.lzss_decompress(data, out_size, start_offset)`: 256-byte ring
of zeros, cursor `256 - 17 = 239`.  Returns the output and whether the
decode was cut short by end-of-data. -/
def lzss_decompress (data : List Nat) (outSize : Nat) (startOffset : Nat) :
    List Nat × Bool :=
  lzssLoop outSize (mkBR data startOffset) (List.replicate 256 0) 239 outSize []


/-! ## nsaex.py — SPB plausibility and size helpers -/

def MAX_W : Nat := 8192

def MAX_H : Nat := 8192

/-- 16MP cap (`4096 * 4096`). -/
def MAX_PIXELS : Nat := 4096 * 4096

/-- `nsaex.spb_plausible`. -/
def spb_plausible (raw : List Nat) : Bool × Nat × Nat :=
  if raw.length < 4 then (false, 0, 0)
  else
    let w := ((raw.getD 0 0) <<< 8) ||| raw.getD 1 0
    let h := ((raw.getD 2 0) <<< 8) ||| raw.getD 3 0
    if ¬(1 ≤ w ∧ w ≤ MAX_W ∧ 1 ≤ h ∧ h ≤ MAX_H) then (false, w, h)
    else if w * h > MAX_PIXELS then (false, w, h)
    else (true, w, h)

/-- `nsaex.expected_24bpp_bmp_size`. -/
def expected_24bpp_bmp_size (w h : Nat) : Nat :=
  let row := w * 3
  let pad := (4 - row % 4) % 4
  14 + 40 + h * (row + pad)

/-! ## nsaex.py — SPB plane decoder

The source decodes each plane inside `try/except EOFError`; on
end-of-data the remaining pixels are padded with the current `ch` and
the bit reader keeps the state it had at the failed read (so the next
plane continues from it).  `spb_to_bmp`'s wall-clock deadline is not
modelled (see the header comment); everything else follows the source. -/

/-- Result of the inner `for _ in range(4)` loop of the SPB plane
decoder: either it finished (`ok`) or a bit read hit end-of-data
(`eof`, carrying the reader state saved at the raise). -/
inductive SpbStep where
  | ok (ch : Nat) (acc : List Nat) (dest : Nat) (br : BitSt)
  | eof (ch : Nat) (acc : List Nat) (dest : Nat) (br : BitSt)

/-- The `for _ in range(4)` loop: each pass reads an absolute byte
(`mask = 8`) or a delta (`mask` bits: odd `t` adds `(t >> 1) + 1`, even
`t` subtracts `t >> 1`, both mod 256), then stores `ch` unless the plane
is already full. -/
def spbInner : Nat → Nat → Nat → Nat → List Nat → BitSt → Nat → SpbStep
  | 0, _, ch, dest, acc, br, _ => .ok ch acc dest br
  | k + 1, mask, ch, dest, acc, br, pix =>
    let step : Except BitSt (Nat × BitSt) :=
      if mask = 8 then getU8 br
      else
        match getBits br mask with
        | .error e => .error e
        | .ok (t, br') =>
          if t &&& 1 = 1 then .ok ((ch + (t >>> 1) + 1) % 256, br')
          else .ok ((ch + 256 - (t >>> 1)) % 256, br')
    match step with
    | .error e => .eof ch acc dest e
    | .ok (ch', br') =>
      if dest ≥ pix then .ok ch' acc dest br'
      else spbInner k mask ch' (dest + 1) (acc ++ [ch']) br' pix

/-- The per-plane `while dest_i < pix_count` loop.  `nbit = 0` emits a
run of `min(4, remaining)` copies of `ch`; otherwise the 4-pass inner
loop runs with `mask = get_bits(1) + 1` when `nbit = 7` else
`nbit + 2`.  End-of-data pads the rest of the plane with the current
`ch`.  Each continuing iteration advances `dest` by at least one, so
the official fuel `pix` never runs out (the fuel-out case returns the
same padded shape as end-of-data but is unreachable). -/
def spbPlaneLoop : Nat → BitSt → Nat → Nat → List Nat → Nat → List Nat × BitSt
  | 0, br, ch, dest, acc, pix => (acc ++ List.replicate (pix - dest) ch, br)
  | f + 1, br, ch, dest, acc, pix =>
    if dest ≥ pix then (acc, br)
    else
      match getBits br 3 with
      | .error e => (acc ++ List.replicate (pix - dest) ch, e)
      | .ok (nbit, br₁) =>
        if nbit = 0 then
          let remaining := pix - dest
          let run := if remaining ≥ 4 then 4 else remaining
          spbPlaneLoop f br₁ ch (dest + run) (acc ++ List.replicate run ch) pix
        else
          let maskE : Except BitSt (Nat × BitSt) :=
            if nbit = 7 then
              match getBits br₁ 1 with
              | .error e => .error e
              | .ok (b, br₂) => .ok (b + 1, br₂)
            else .ok (nbit + 2, br₁)
          match maskE with
          | .error e => (acc ++ List.replicate (pix - dest) ch, e)
          | .ok (mask, br₂) =>
            match spbInner 4 mask ch dest acc br₂ pix with
            | .eof ch' acc' dest' e => (acc' ++ List.replicate (pix - dest') ch', e)
            | .ok ch' acc' dest' br₃ => spbPlaneLoop f br₃ ch' dest' acc' pix

/-- One plane of `spb_to_bmp`: `ch = get_u8()` (0 on end-of-data, with
the reader keeping its failure state), pixel 0 is `ch`, then the loop.
Only called with `pix ≥ 1` (validated by `spb_to_bmp`). -/
def spbPlane (br : BitSt) (pix : Nat) : List Nat × BitSt :=
  let first : Nat × BitSt :=
    match getU8 br with
    | .error e => (0, e)
    | .ok (c, b) => (c, b)
  spbPlaneLoop pix first.2 first.1 1 [first.1] pix

/-! ## nsaex.py — SPB scan mapping and BMP wrap -/

/-- Write at a (provably non-negative) index; the `Int` mirrors the
source's plain integer index arithmetic. -/
def setAtI (l : List Nat) (idx : Int) (v : Nat) : List Nat :=
  if idx < 0 then l else l.set idx.toNat v

/-- A forward row: `rgb[qq] = tmp[p]; p += 1; qq += 3`, `w` times. -/
def fillFwd : Nat → List Nat → Nat → Int → List Nat → List Nat × Nat × Int
  | 0, _, p, qq, rgb => (rgb, p, qq)
  | w + 1, tmp, p, qq, rgb => fillFwd w tmp (p + 1) (qq + 3) (setAtI rgb qq (tmp.getD p 0))

/-- A reverse row: `rgb[qq] = tmp[p]; p += 1; qq -= 3`, `w` times. -/
def fillRev : Nat → List Nat → Nat → Int → List Nat → List Nat × Nat × Int
  | 0, _, p, qq, rgb => (rgb, p, qq)
  | w + 1, tmp, p, qq, rgb => fillRev w tmp (p + 1) (qq - 3) (setAtI rgb qq (tmp.getD p 0))

/-- The zigzag `for _ in range(half_rows)` loop: a forward row, then
`qq -= 3` and a reverse row, then `q = qq + 3 + stride3`. -/
def zigzagHalf : Nat → Nat → Int → List Nat → Nat → Int → List Nat → List Nat × Nat × Int
  | 0, _, _, _, p, q, rgb => (rgb, p, q)
  | hr + 1, width, stride3, tmp, p, q, rgb =>
    match fillFwd width tmp p q rgb with
    | (rgb₁, p₁, qq₁) =>
      match fillRev width tmp p₁ (qq₁ - 3) rgb₁ with
      | (rgb₂, p₂, qq₂) => zigzagHalf hr width stride3 tmp p₂ (qq₂ + 3 + stride3) rgb₂

/-- The linear `for y in range(height)` mapping. -/
def linearRows : Nat → Nat → Nat → Nat → List Nat → Nat → Nat → List Nat → List Nat
  | 0, _, _, _, _, _, _, rgb => rgb
  | rows + 1, width, stride3, planeIdx, tmp, p, y, rgb =>
    match fillFwd width tmp p (Int.ofNat (y * stride3 + planeIdx)) rgb with
    | (rgb', p', _) => linearRows rows width stride3 planeIdx tmp p' (y + 1) rgb'

/-- Map one decoded plane into the interleaved buffer according to the
scan pattern (`"linear"` or zigzag with a trailing forward row for odd
heights). -/
def spbMapPlane (scan : String) (width height planeIdx : Nat) (tmp rgb : List Nat) :
    List Nat :=
  let stride3 : Int := (width : Int) * 3
  if scan = "linear" then linearRows height width (width * 3) planeIdx tmp 0 0 rgb
  else
    match zigzagHalf (height / 2) width stride3 tmp 0 (Int.ofNat planeIdx) rgb with
    | (rgb₁, p₁, q₁) =>
      if height % 2 = 1 then (fillFwd width tmp p₁ q₁ rgb₁).1 else rgb₁

def le16 (v : Nat) : List Nat := [v % 256, v / 256 % 256]

def le32 (v : Nat) : List Nat :=
  [v % 256, v / 256 % 256, v / 65536 % 256, v / 16777216 % 256]

/-- The 14+40-byte BMP header built by `spb_to_bmp` (`struct.pack_into`
little-endian writes into a zero bytearray; the signed width/height
packs coincide with unsigned for the validated ranges): `BM`, file
size, reserved 0, pixel offset 54, DIB size 40, width, height,
planes 1, bpp 24, remaining DIB fields zero. -/
def bmpHeader (fileSize width height : Nat) : List Nat :=
  [0x42, 0x4D] ++ le32 fileSize ++ le32 0 ++ le32 54 ++ le32 40 ++
    le32 width ++ le32 height ++ le16 1 ++ le16 24 ++ List.replicate 24 0

/-- `nsaex.spb_to_bmp(spb, scan=, plane=)` without the wall-clock
deadline.  Errors are the source's `ValueError` messages. -/
def spb_to_bmp (spb : List Nat) (scan plane : String) : Except String (List Nat) :=
  if spb.length < 4 then .error "SPB too short"
  else
    let width := ((spb.getD 0 0) <<< 8) ||| spb.getD 1 0
    let height := ((spb.getD 2 0) <<< 8) ||| spb.getD 3 0
    if ¬(1 ≤ width ∧ width ≤ MAX_W ∧ 1 ≤ height ∧ height ≤ MAX_H) then
      .error "Invalid SPB size"
    else
      let pix := width * height
      if pix = 0 ∨ pix > MAX_PIXELS then .error "Invalid SPB pixel count"
      else
        let src := mkBR spb 4
        let planeOrder : List Nat :=
          if String.mk (plane.data.map lowerC) = "rgb" then [0, 1, 2] else [2, 1, 0]
        let start : List Nat × BitSt := (List.replicate (pix * 3) 0, src)
        let dec := planeOrder.foldl
          (fun st planeIdx =>
            match spbPlane st.2 pix with
            | (tmp, br') => (spbMapPlane scan width height planeIdx tmp st.1, br'))
          start
        let rowBytes := width * 3
        let pad := (4 - rowBytes % 4) % 4
        let pixelData := (List.range height).flatMap
          (fun y => ((dec.1.drop ((height - 1 - y) * rowBytes)).take rowBytes) ++
            List.replicate pad 0)
        let fileSize := 14 + 40 + pixelData.length
        .ok (bmpHeader fileSize width height ++ pixelData)

/-! ## nsaex.py — entry dispatcher -/

/-- The characters after the last `.` of a name, `none` when it has no
dot. -/
def afterLastDot : List Char → Option (List Char)
  | [] => none
  | c :: r =>
    match afterLastDot r with
    | some t => some t
    | none => if c = '.' then some r else none

/-- `Path(name).suffix.lower().lstrip(".")` for the plain entry names
appearing here: the part after the last `.`, lowercased; empty when the
name has no dot. -/
def extName (name : String) : String :=
  match afterLastDot name.data with
  | none => ""
  | some t => String.mk (t.map lowerC)

/-- The LZSS magic scan of the dispatcher: first offset within
`[0, scanMax)` where `raw[off:off+2] == b"\xa1\x53"`. -/
def findLzOff (raw : List Nat) (scanMax : Nat) : Option Nat :=
  (List.range scanMax).find? (fun off => (raw.drop off).take 2 == [0xA1, 0x53])

/-- `nsaex.detect_and_process_bmp`.  Python's `bz2.decompress` is an
external library call, passed in as an oracle `bz2d` that returns `none`
when the library raises.  Returns `(bytes to write or none, status)`. -/
def detect_and_process_bmp (bz2d : List Nat → Option (List Nat)) (raw : List Nat)
    (expandedSize : Nat) (spbMode : String)
    (spbSkipPlausibility spbSkipSizecheck : Bool) (spbScan spbPlaneOrd : String) :
    Option (List Nat) × String :=
  if raw.length ≥ 2 ∧ raw.take 2 = [0x42, 0x4D] then (none, "raw_bmp")
  else
    let tryBz : Nat → Option (List Nat) := fun off =>
      if raw.length ≥ off + 3 ∧ (raw.drop off).take 3 = [0x42, 0x5A, 0x68] then
        match bz2d (raw.drop off) with
        | some d => if d.length ≥ 2 ∧ d.take 2 = [0x42, 0x4D] then some d else none
        | none => none
      else none
    match tryBz 0 with
    | some d => (some d, "bz2_decompressed")
    | none =>
      match tryBz 4 with
      | some d => (some d, "bz2_decompressed")
      | none =>
        let lzRes : Option (Option (List Nat) × String) :=
          match findLzOff raw (min 16 (raw.length - 1)) with
          | some off =>
            let out := (lzss_decompress raw expandedSize off).1
            if out.length ≥ 2 ∧ out.take 2 = [0x42, 0x4D] then
              some (some out, "lzss_decompressed")
            else none
          | none => none
        match lzRes with
        | some r => r
        | none =>
          match spb_plausible raw with
          | (plaus, w₀, h₀) =>
            if ¬plaus ∧ ¬spbSkipPlausibility then (none, "spb_skip_implausible")
            else
              let w := if ¬plaus ∧ raw.length ≥ 4 then
                ((raw.getD 0 0) <<< 8) ||| raw.getD 1 0 else w₀
              let h := if ¬plaus ∧ raw.length ≥ 4 then
                ((raw.getD 2 0) <<< 8) ||| raw.getD 3 0 else h₀
              let goSpb : Option (List Nat) × String :=
                if spbMode = "copy" then (none, "spb_skip_policy")
                else
                  match spb_to_bmp raw spbScan spbPlaneOrd with
                  | .ok out => (some out, "spb_converted")
                  | .error _ => (none, "spb_skip_error")
              if ¬spbSkipSizecheck ∧ expandedSize ≠ 0 then
                if ((expected_24bpp_bmp_size w h : Int) - (expandedSize : Int)).natAbs > 8 then
                  (none, "spb_skip_mismatch")
                else goSpb
              else goSpb

/-- `nsaex.process_file_bytes`: returns
`(bytes to write, should_write, status)`. -/
def process_file_bytes (bz2d : List Nat → Option (List Nat)) (name : String)
    (data : List Nat) (expandedSize : Nat) (compressionFlag : Nat)
    (spbMode : String) (spbSkipPlausibility spbSkipSizecheck : Bool)
    (spbScan spbPlaneOrd : String) : Option (List Nat) × Bool × String :=
  let ext := extName name
  let flag := compressionFlag
  if ext = "nbz" then
    (some (if data.length ≥ 4 then data.drop 4 else data), true, "nbz_payload")
  else if flag = 4 then
    let tryBz : Nat → Option (List Nat) := fun off =>
      if data.length ≥ off + 3 ∧ (data.drop off).take 3 = [0x42, 0x5A, 0x68] then
        bz2d (data.drop off)
      else none
    match tryBz 0 with
    | some wav => (some wav, true, "nbz_decompressed")
    | none =>
      match tryBz 4 with
      | some wav => (some wav, true, "nbz_decompressed")
      | none => (some (if data.length ≥ 4 then data.drop 4 else data), true, "nbz_payload")
  else if ext = "bmp" then
    let lzTry : Option (Option (List Nat) × Bool × String) :=
      if flag = 2 then
        match findLzOff data (min 16 (data.length - 1)) with
        | some off =>
          let out := (lzss_decompress data expandedSize off).1
          if out.length ≥ 2 ∧ out.take 2 = [0x42, 0x4D] then
            some (some out, true, "lzss_decompressed_flag")
          else none
        | none => none
      else none
    match lzTry with
    | some r => r
    | none =>
      let spbTry : Option (Option (List Nat) × Bool × String) :=
        if flag = 1 then
          match spb_plausible data with
          | (plaus, w, h) =>
            if plaus ∨ spbSkipPlausibility then
              if ¬spbSkipSizecheck ∧ expandedSize ≠ 0 ∧ data.length ≥ 4 then
                if ((expected_24bpp_bmp_size w h : Int) - (expandedSize : Int)).natAbs ≤ 8 then
                  match spb_to_bmp data spbScan spbPlaneOrd with
                  | .ok out => some (some out, true, "spb_converted_flag")
                  | .error _ => none
                else none
              else
                match spb_to_bmp data spbScan spbPlaneOrd with
                | .ok out => some (some out, true, "spb_converted_flag")
                | .error _ => none
            else none
        else none
      match spbTry with
      | some r => r
      | none =>
        match detect_and_process_bmp bz2d data expandedSize spbMode
            spbSkipPlausibility spbSkipSizecheck spbScan spbPlaneOrd with
        | (transformed, status) =>
          if status = "raw_bmp" then (some data, true, status)
          else if (status = "lzss_decompressed" ∨ status = "bz2_decompressed" ∨
              status = "spb_converted") ∧ transformed.isSome then
            (transformed, true, status)
          else (none, false, status)
  else (some data, true, "passthrough")

/-! ## Concrete inputs for the SPB and dispatcher claims -/

/-- The SPB payload of the spec's scenario 3: width 2, height 1, then
per-plane data `FF 00` repeated for the three planes. -/
def c7payload : List Nat := [0x00, 0x02, 0x00, 0x01, 0xFF, 0x00, 0xFF, 0x00, 0xFF, 0x00]

/-- The BMP that `spb_to_bmp` actually produces for `c7payload` under the
default zigzag scan and bgr plane order. -/
def c7bmp : List Nat := (spb_to_bmp c7payload "zigzag" "bgr").toOption.getD []

/-- bz2 oracle for entries that contain no bzip2 stream: never consulted
on the concrete inputs below (none of them has a `BZh` marker). -/
def noBz2 : List Nat → Option (List Nat) := fun _ => none

/-- `process_file_bytes` on a `.bmp` entry flagged 1 (SPB) whose header
passes plausibility and whose `expanded_size` matches the expected
24-bpp BMP size, under `spb_mode = "copy"`. -/
def c3result : Option (List Nat) × Bool × String :=
  process_file_bytes noBz2 "a.bmp" c7payload 62 1 "copy" false false "zigzag" "bgr"

/-! ## nslex.py — data model

The source keeps every attribute flat on the `Lexer` object.  Here the
fields that are immutable during tokenization (buffer, flags, alias
table, variable store as read by the tokenizer) are grouped into `Env`,
and the cursor-like mutable fields stay on `Lexer`; this is purely
representational. -/

def END_COMMA : Nat := 1

def INV : Nat := 0

def PLUS : Nat := 1

def MINUS : Nat := 2

def MULT : Nat := 3

def DIV : Nat := 4

def MOD : Nat := 5

/-- `nslex.Var`: the defaults are exactly `Var()`. -/
structure Var where
  num : Int := 0
  str : Option String := none
  lim : Bool := false
  lo : Int := 0
  hi : Int := 0
  deriving Repr, DecidableEq, Inhabited

/-- `nslex.Array`: `dim` is the fixed 20-slot dimension vector. -/
structure ArrayNode where
  no : Int := 0
  numDim : Nat := 0
  dim : List Int := List.replicate 20 0
  data : List Int := []
  deriving Repr, DecidableEq, Inhabited

/-- A parsed array reference (`_array_at`'s result); `dims` holds the
first `num_dim` entries of the source's zero-padded 20-slot vector, the
rest being the zeros `List.getD` supplies. -/
structure ArrRef where
  no : Int := 0
  dims : List Int := []
  deriving Repr, DecidableEq, Inhabited

/-- `nslex.Label` (the sentinel label uses `start = -1`, hence `Int`). -/
structure Label where
  name : String := ""
  hdr : Nat := 0
  start : Int := 0
  sline : Nat := 0
  lines : Nat := 0
  deriving Repr, DecidableEq, Inhabited

/-- `nslex.Token`. -/
structure Token where
  kind : String
  text : String
  pos : Nat
  line : Nat
  endf : Nat := 0
  waitAt : Option Nat := none
  color : Option Nat := none
  deriving Repr, DecidableEq

instance : Inhabited Token := ⟨{ kind := "", text := "", pos := 0, line := 0 }⟩

/-- The immutable-during-tokenization part of the lexer state.  Defaults
are `Lexer.__init__`'s (`arr_root = Array()` gives the one-element
array chain). -/
structure Env where
  s : List Char := []
  expandInText : Bool := false
  encCode : Nat := 932
  textMarker : Nat := 0
  lang : Nat := 1
  pons : Bool := false
  click : Option Char := none
  numAlias : List (String × Int) := []
  varRng : Nat := 0
  vars : List Var := []
  ext : List (Int × Var) := []
  arrays : List ArrayNode := [{}]
  deriving Repr, DecidableEq, Inhabited

/-- The lexer: `env` plus the mutable cursor state, label index and the
config results.  Defaults are `Lexer.__init__`'s. -/
structure Lexer where
  env : Env := {}
  i : Nat := 0
  line : Nat := 0
  endf : Nat := 0
  waitAt : Option Nat := none
  textMode : Bool := false
  curColor : Option Nat := none
  labels : List Label := []
  numLabels : Nat := 0
  sw : Nat := 640
  sh : Nat := 480
  globBorder : Nat := 0
  deriving Repr, DecidableEq, Inhabited

/-- Python exceptions of the lexer: list indexing one past the end
(`IndexError`), `Lexer._err`'s `SystemExit`, `_array_at`'s `assert`, and
the fuel sentinel of the embedded loops (unreachable under the official
fuel; see `bigFuel`). -/
inductive LexErr where
  | indexError
  | sysExit (msg : String)
  | assertFail
  | fuelOut
  deriving Repr, DecidableEq

/-! ## nslex.py — character helpers and scanning -/

def isA (c : Char) : Bool := decide ('A' ≤ c ∧ c ≤ 'Z') || decide ('a' ≤ c ∧ c ≤ 'z')

/-- ASCII digits; Python's `str.isdigit` on the characters that occur in
these buffers. -/
def isD (c : Char) : Bool := decide ('0' ≤ c ∧ c ≤ '9')

def isId0 (c : Char) : Bool := isA c || c == '_'

def isId (c : Char) : Bool := isA c || isD c || c == '_'

/-- Python `str.isalpha`/`isdigit`/`_` as used by `_after_label` and
`_str_at` (ASCII fragment; the buffers in this development are ASCII). -/
def isAlnumU (c : Char) : Bool := isA c || isD c || c == '_'

def countWs : List Char → Nat
  | [] => 0
  | c :: r => if c == ' ' || c == '\t' then countWs r + 1 else 0

/-- `nslex.skip_ws(s, i)`: the source's while loop advances `i` over
spaces and tabs; counting the all-whitespace head of `s.drop i` is the
same final position. -/
def skipWs (s : List Char) (i : Nat) : Nat := i + countWs (s.drop i)

/-- Read `s[i]`; only used under an `i < length` guard (unguarded
accesses of the source are modelled with an explicit bounds check that
raises `indexError`). -/
def getC (s : List Char) (i : Nat) : Char := s.getD i (Char.ofNat 0)

/-- `s.startswith(pat, i)`. -/
def startsWithAt (s : List Char) (i : Nat) (pat : List Char) : Bool :=
  (s.drop i).take pat.length == pat

def countId : List Char → Nat
  | [] => 0
  | c :: r => if isId c then countId r + 1 else 0

def countDigits : List Char → Nat
  | [] => 0
  | c :: r => if isD c then countDigits r + 1 else 0

/-- The digit-accumulation loop `v = v * 10 + (ord(s[j]) - 48)`. -/
def digitsVal : List Char → Nat → Nat
  | [], v => v
  | c :: r, v => if isD c then digitsVal r (v * 10 + (c.toNat - 48)) else v

/-- The lowercased slice `s[i:j].lower()`. -/
def sliceLower (s : List Char) (i j : Nat) : String :=
  String.mk (((s.drop i).take (j - i)).map lowerC)

def aliasLookup (al : List (String × Int)) (name : String) : Option Int :=
  (al.find? (fun p => p.1 == name)).map (·.2)

/-! ## nslex.py — variable store -/

/-- Pure read of `Lexer._vd`: slots `0 ≤ no < var_rng` come from the
dense vector (which `open` sizes to exactly `var_rng`, modelled by
`getD`), any other `no` from the sparse `ext` map.  `_vd` inserts a
fresh default `Var()` on an `ext` miss; since that inserted slot is
exactly what a read of a missing slot returns, reads are
observationally stateless, so the tokenizer and expression evaluator
use this pure read while the insertion itself is modelled in
`Lexer.vd` below (used by `set_num`). -/
def vdRead (E : Env) (no : Int) : Var :=
  if 0 ≤ no ∧ no < (E.varRng : Int) then E.vars.getD no.toNat default
  else ((E.ext.find? (fun p => p.1 == no)).map (·.2)).getD default

/-- `Lexer._vd` with its ext-map insertion. -/
def Lexer.vd (lx : Lexer) (no : Int) : Var × Lexer :=
  if 0 ≤ no ∧ no < (lx.env.varRng : Int) then (lx.env.vars.getD no.toNat default, lx)
  else
    match lx.env.ext.find? (fun p => p.1 == no) with
    | some p => (p.2, lx)
    | none =>
      (default, { lx with env := { lx.env with ext := lx.env.ext ++ [(no, default)] } })

/-- Replace the slot of key `no` (present by construction when called). -/
def extReplace : List (Int × Var) → Int → Var → List (Int × Var)
  | [], _, _ => []
  | p :: r, no, w => if p.1 == no then (no, w) :: r else p :: extReplace r no w

/-- `Lexer.set_num`: fetch the slot via `_vd`, clamp sequentially against
`lo` then `hi` when `lim` is set, store the value.  The source mutates
the aliased `Var` object; here the updated slot is written back to the
dense vector or the sparse map it came from. -/
def Lexer.setNum (lx : Lexer) (no : Int) (val : Int) : Lexer :=
  match lx.vd no with
  | (v, lx₁) =>
    let val₁ := if v.lim ∧ val < v.lo then v.lo else val
    let val₂ := if v.lim ∧ val₁ > v.hi then v.hi else val₁
    if 0 ≤ no ∧ no < (lx₁.env.varRng : Int) then
      { lx₁ with
        env := { lx₁.env with vars := lx₁.env.vars.set no.toNat { v with num := val₂ } } }
    else
      { lx₁ with
        env := { lx₁.env with ext := extReplace lx₁.env.ext no { v with num := val₂ } } }

/-! ## nslex.py — integer scanning and arithmetic -/

/-- `Lexer._int_raw`: optional sign, then a known alias name or a digit
run; an unknown identifier or missing digits backtracks to the position
before a consumed `-` (a consumed `+` is, as in the source, not
restored). -/
def intRaw (E : Env) (i0 : Nat) : Int × Nat :=
  let s := E.s
  let n := s.length
  let i₁ := skipWs s i0
  let hasSign := i₁ < n ∧ (getC s i₁ = '+' ∨ getC s i₁ = '-')
  let neg := i₁ < n ∧ getC s i₁ = '-'
  let i := if hasSign then i₁ + 1 else i₁
  let back := i - (if neg then 1 else 0)
  if i < n ∧ isId0 (getC s i) then
    let j := i + countId (s.drop i)
    match aliasLookup E.numAlias (sliceLower s i j) with
    | some v => ((if neg then -v else v), j)
    | none => (0, back)
  else
    let len := countDigits (s.drop i)
    if len = 0 then (0, back)
    else ((if neg then -(digitsVal (s.drop i) 0 : Int) else (digitsVal (s.drop i) 0 : Int)),
      i + len)

/-- `Lexer._calc`.  Python's `int(a / b)` truncates toward zero
(`Int.tdiv`; the float detour is exact for the magnitudes scripts
produce), and Python's `%` follows the divisor's sign (`Int.fmod`);
both yield 0 on a zero divisor. -/
def calcOp (a : Int) (op : Nat) (b : Int) : Int :=
  if op = PLUS then a + b
  else if op = MINUS then a - b
  else if op = MULT then a * b
  else if op = DIV then (if b = 0 then 0 else Int.tdiv a b)
  else if op = MOD then (if b = 0 then 0 else Int.fmod a b)
  else a

/-- The operator scanner of `Lexer._expr` (`next_op`): skips whitespace,
then recognizes `+ - * /` and the word `mod`; anything else is `INV`
with the whitespace-skipped position. -/
def nextOp (E : Env) (i0 : Nat) : Nat × Nat :=
  let s := E.s
  let n := s.length
  let j := skipWs s i0
  if j ≥ n then (INV, j)
  else if getC s j = '+' then (PLUS, j + 1)
  else if getC s j = '-' then (MINUS, j + 1)
  else if getC s j = '*' then (MULT, j + 1)
  else if getC s j = '/' then (DIV, j + 1)
  else if startsWithAt s j ['m', 'o', 'd'] then (MOD, j + 3)
  else (INV, j)

/-- `Lexer._arr_node`: walk the declared-array chain. -/
def arrNode (E : Env) (no : Int) : Except LexErr ArrayNode :=
  match E.arrays.find? (fun a => a.no == no) with
  | some a => .ok a
  | none => .error (.sysExit "array not declared")

/-- The `for k in range(decl.num_dim)` accumulation of `_arr_idx`. -/
def arrIdxAux (decl : ArrayNode) (req : ArrRef) : Nat → Nat → Int → Except LexErr Int
  | 0, _, acc => .ok acc
  | cnt + 1, k, acc =>
    let d := decl.dim.getD k 0
    let r := req.dims.getD k 0
    if d ≤ r then .error (.sysExit "dim overflow")
    else arrIdxAux decl req cnt (k + 1) (acc * d + r)

/-- `Lexer._arr_idx` (the `dim[num_dim - 1]` read of a zero-dimension
declaration is Python's negative index `dim[-1]`, slot 19 of the
20-slot vector). -/
def arrIdx (decl : ArrayNode) (req : ArrRef) (off : Int) : Except LexErr Int :=
  match arrIdxAux decl req decl.numDim 0 0 with
  | .error e => .error e
  | .ok acc =>
    let lastK := if decl.numDim = 0 then 19 else decl.numDim - 1
    if decl.dim.getD lastK 0 ≤ req.dims.getD lastK 0 + off then
      .error (.sysExit "offset overflow")
    else .ok (acc + off)

/-- Python list indexing with negative wrap-around (`node.data[idx]`). -/
def pyIndex (l : List Int) (idx : Int) : Except LexErr Int :=
  if 0 ≤ idx then
    if idx.toNat < l.length then .ok (l.getD idx.toNat 0) else .error .indexError
  else
    if idx.natAbs ≤ l.length then .ok (l.getD (l.length - idx.natAbs) 0)
    else .error .indexError

/-! ## nslex.py — the recursive-descent evaluator

`_expr`, its `read_num`/operator loop, `_int_at` and `_array_at` are
mutually recursive over the buffer; every recursive call advances the
cursor or steps down the fixed chain expr → read_num → int_at →
array_at, so the explicit fuel of the embedding, set by `bigFuel`,
never runs out (`fuelOut` is a sentinel, not a reachable result of the
official entry points). -/

/-- The fuel-indexed family of the mutually recursive evaluator
functions of `nslex` (`_expr` with its `read_num`/operator loop,
`_int_at`, `_array_at` with its bracket loop): level `fuel + 1` calls
level `fuel` exactly where the source recurses, so `fuelOut` (level 0)
is unreachable from the official entry points (see `bigFuel`). -/
structure ParseFns where
  expr : Nat → Except LexErr (Int × Nat)
  exprLoop : Int → Nat → Int → Nat → Except LexErr (Int × Nat)
  readNum : Nat → Except LexErr (Int × Nat)
  intAt : Nat → Except LexErr (Int × Nat)
  arrayAt : Nat → Except LexErr (ArrRef × Nat)
  arrayLoop : Int → List Int → Nat → Except LexErr (ArrRef × Nat)

/-- Level 0: out of fuel. -/
def parseNone : ParseFns where
  expr := fun _ => .error .fuelOut
  exprLoop := fun _ _ _ _ => .error .fuelOut
  readNum := fun _ => .error .fuelOut
  intAt := fun _ => .error .fuelOut
  arrayAt := fun _ => .error .fuelOut
  arrayLoop := fun _ _ _ => .error .fuelOut

/-- One level of the evaluator.

* `expr` is `Lexer._expr` up to its first operator;
* `exprLoop` is `_expr`'s `while True` operator-folding loop: a
  higher-precedence operator folds into the right operand first, and on
  `INV` the loop breaks without consuming the trailing whitespace (the
  returned position is the one before the final `next_op`);
* `readNum` is `read_num` inside `_expr`: optional unary minus,
  parenthesized sub-expression, else `_int_at`;
* `intAt` is `Lexer._int_at`, which reads `s[i]` with no bounds check
  after skipping whitespace, so a cursor at (or whitespace running to)
  the end of the buffer raises `IndexError`;
* `arrayAt` is `Lexer._array_at` (the `assert` is the source's
  `assert s[i] == "?"`), `arrayLoop` its `while s[i] == '['` loop (a
  21st dimension would overflow the 20-slot `dim` vector). -/
def parseStep (E : Env) (p : ParseFns) : ParseFns where
  expr := fun i =>
    match p.readNum i with
    | .error e => .error e
    | .ok (a, i₁) =>
      match nextOp E i₁ with
      | (op, i₂) =>
        if op = INV then .ok (a, i₂)
        else
          match p.readNum i₂ with
          | .error e => .error e
          | .ok (b, i₃) => p.exprLoop a op b i₃
  exprLoop := fun a op b i =>
    match nextOp E i with
    | (op2, i₂) =>
      if op2 = INV then .ok (calcOp a op b, i)
      else
        match p.readNum i₂ with
        | .error e => .error e
        | .ok (c, i₃) =>
          if ¬(op = MULT ∨ op = DIV ∨ op = MOD) ∧ (op2 = MULT ∨ op2 = DIV ∨ op2 = MOD) then
            p.exprLoop a op (calcOp b op2 c) i₃
          else p.exprLoop (calcOp a op b) op2 c i₃
  readNum := fun i0 =>
    let s := E.s
    let n := s.length
    let j₀ := skipWs s i0
    let neg := j₀ < n ∧ getC s j₀ = '-'
    let j := if neg then skipWs s (j₀ + 1) else j₀
    if j < n ∧ getC s j = '(' then
      match p.expr (j + 1) with
      | .error e => .error e
      | .ok (v, k₀) =>
        let k := skipWs s k₀
        if k ≥ n ∨ getC s k ≠ ')' then .error (.sysExit "missing )")
        else .ok ((if neg then -v else v), k + 1)
    else
      match p.intAt j with
      | .error e => .error e
      | .ok (v, k) => .ok ((if neg then -v else v), k)
  intAt := fun i0 =>
    let s := E.s
    let n := s.length
    let i := skipWs s i0
    if i ≥ n then .error .indexError
    else if getC s i = '%' then
      match intRaw E (i + 1) with
      | (no, j) => .ok ((vdRead E no).num, j)
    else if getC s i = '?' then
      match p.arrayAt i with
      | .error e => .error e
      | .ok (av, j) =>
        match arrNode E av.no with
        | .error e => .error e
        | .ok node =>
          match arrIdx node av 0 with
          | .error e => .error e
          | .ok idx =>
            match pyIndex node.data idx with
            | .error e => .error e
            | .ok v => .ok (v, j)
    else .ok (intRaw E i)
  arrayAt := fun i0 =>
    let s := E.s
    let n := s.length
    let i := skipWs s i0
    if ¬(i < n ∧ getC s i = '?') then .error .assertFail
    else
      match intRaw E (i + 1) with
      | (no, i₁) => p.arrayLoop no [] i₁
  arrayLoop := fun no dims i =>
    let s := E.s
    let n := s.length
    if i < n ∧ getC s i = '[' then
      if dims.length ≥ 20 then .error .indexError
      else
        match p.expr (i + 1) with
        | .error e => .error e
        | .ok (v, i₁) =>
          let i₂ := skipWs s i₁
          if i₂ ≥ n ∨ getC s i₂ ≠ ']' then .error (.sysExit "parseArray: missing ]")
          else p.arrayLoop no (dims ++ [v]) (i₂ + 1)
    else .ok ({ no := no, dims := dims }, i)

/-- The evaluator at a given fuel (plain `Nat.rec`, which the kernel
evaluates efficiently). -/
def parseFns (E : Env) (fuel : Nat) : ParseFns :=
  Nat.rec parseNone (fun _ prev => parseStep E prev) fuel

/-- `Lexer._expr` at an explicit fuel. -/
def exprF (E : Env) (fuel : Nat) (i : Nat) : Except LexErr (Int × Nat) :=
  (parseFns E fuel).expr i

/-- `read_num` of `_expr` at an explicit fuel. -/
def readNumF (E : Env) (fuel : Nat) (i0 : Nat) : Except LexErr (Int × Nat) :=
  (parseFns E fuel).readNum i0

/-- `Lexer._int_at` at an explicit fuel. -/
def intAtF (E : Env) (fuel : Nat) (i0 : Nat) : Except LexErr (Int × Nat) :=
  (parseFns E fuel).intAt i0


/-- Fuel that dominates the recursion depth of the evaluator (and of the
tokenizer's text loop below): every recursive call advances the cursor
or steps down a bounded call chain first. -/
def bigFuel (E : Env) : Nat := 8 * (E.s.length + 2) + 8

/-- `Lexer._eat_comma`, returning the new position and `end` flags. -/
def eatComma (E : Env) (i0 : Nat) (endf : Nat) : Nat × Nat :=
  let s := E.s
  let n := s.length
  let i := skipWs s i0
  if i < n ∧ getC s i = ',' then (skipWs s (i + 1), endf ||| END_COMMA)
  else (i, endf)

/-- `Lexer.read_int`. -/
def Lexer.readInt (lx : Lexer) : Except LexErr (Int × Lexer) :=
  match exprF lx.env (bigFuel lx.env) lx.i with
  | .error e => .error e
  | .ok (v, j) =>
    match eatComma lx.env j lx.endf with
    | (i', endf') => .ok (v, { lx with i := i', endf := endf' })

/-- A fresh lexer whose buffer is `buf` with the cursor at 0 (the state
the expression-evaluation scenarios start from). -/
def mkLexer (buf : String) : Lexer := { env := { s := buf.data } }

/-- The integer `read_int` returns, `none` when it raises. -/
def readIntVal (lx : Lexer) : Option Int := lx.readInt.toOption.map (·.1)

def digitC (d : Nat) : Char := Char.ofNat (48 + d)

/-! ## nslex.py — tokenizer -/

def CP932code : Nat := 932

def UTF8code : Nat := 65001

/-- `Enc.bytes`: 1 in UTF-8 mode, else 2 when the code point has bit 7
set (the source passes the decoded character's `ord`). -/
def encBytes (E : Env) (c : Char) : Nat :=
  if E.encCode = UTF8code then 1 else if c.toNat &&& 0x80 ≠ 0 then 2 else 1

/-- `Lexer._maybe_wait`: the single-character clickstr check. -/
def maybeWait (E : Env) (wa : Option Nat) (i : Nat) : Option Nat :=
  match wa, E.click with
  | none, some ck => if 0 < i ∧ getC E.s (i - 1) = ck then some i else wa
  | _, _ => wa

/-- State of the text-accumulation loop of `_next_token`: cursor, the
collected characters `b`, the token's color (`tok_color`), the lexer's
current color, the first wait position, and the `eng` toggle of expand
mode. -/
structure TextSt where
  i : Nat
  b : List Char
  tokColor : Option Nat
  curColor : Option Nat
  waitAt : Option Nat
  eng : Bool
  deriving Repr, DecidableEq

/-- The two-byte-lead advance of the text loop: append the lead byte,
and the trail byte when one remains, returning the new `b` and cursor. -/
def twoByteAdv (E : Env) (b : List Char) (i : Nat) : List Char × Nat :=
  let b₁ := b ++ [getC E.s i]
  let i₁ := i + 1
  if i₁ < E.s.length then (b₁ ++ [getC E.s i₁], i₁ + 1) else (b₁, i₁)

/-- The two-byte-lead branch of the text loop. -/
def textTwoByte (E : Env) (next : TextSt → Except LexErr TextSt) (st : TextSt) :
    Except LexErr TextSt :=
  match twoByteAdv E st.b st.i with
  | (b₂, i₂) => next { st with b := b₂, i := i₂, waitAt := maybeWait E st.waitAt i₂ }

/-- The Ponscripter `^` branch of the text loop: `^@^` emits `@` and
sets `wait_at`, `^~cX~` sets the colors, any other caret is literal. -/
def textPons (E : Env) (next : TextSt → Except LexErr TextSt) (st : TextSt) :
    Except LexErr TextSt :=
  let s := E.s
  let n := s.length
  if st.i + 3 ≤ n ∧ startsWithAt s st.i ['^', '@', '^'] then
    let wa := if st.waitAt = none then some (st.i + 3) else st.waitAt
    next { st with b := st.b ++ ['@'], i := st.i + 3, waitAt := wa }
  else if st.i + 5 ≤ n ∧ getC s (st.i + 1) = '~' ∧ lowerC (getC s (st.i + 2)) = 'c' ∧
      isD (getC s (st.i + 3)) ∧ getC s (st.i + 4) = '~' then
    let col := (getC s (st.i + 3)).toNat - 48
    let tokc := if st.b = [] then some col else st.tokColor
    next { st with tokColor := tokc, curColor := some col, i := st.i + 5 }
  else next { st with b := st.b ++ ['^'], i := st.i + 1 }

/-- The non-expand accumulation branch: stop at `;`, newline or NUL,
else collect the byte and track the first `@`/`\\` as `wait_at`. -/
def textPlain (E : Env) (next : TextSt → Except LexErr TextSt) (st : TextSt) :
    Except LexErr TextSt :=
  let c := getC E.s st.i
  if c = ';' then .ok st
  else if c = '\n' ∨ c = Char.ofNat 0 then .ok st
  else
    let i₁ := st.i + 1
    let wa := if st.waitAt = none ∧ (c = '@' ∨ c = '\\') then some i₁ else st.waitAt
    next { st with b := st.b ++ [c], i := i₁, waitAt := wa }

/-- The expand-mode branch: `%`/`?` expand through the evaluator (level
`f`), `$` expands the string slot, the UTF-8 text marker toggles `eng`,
newline/NUL stop, and an appended byte stops when a `;` follows. -/
def textExpand (E : Env) (f : Nat) (next : TextSt → Except LexErr TextSt) (st : TextSt) :
    Except LexErr TextSt :=
  let s := E.s
  let n := s.length
  let c := getC s st.i
  if ¬st.eng ∧ (c = '%' ∨ c = '?') then
    match intAtF E f st.i with
    | .error e => .error e
    | .ok (v, j) => next { st with b := st.b ++ (toString v).data, i := skipWs s j }
  else if ¬st.eng ∧ c = '$' then
    match intRaw E (st.i + 1) with
    | (no, j) =>
      next { st with b := st.b ++ ((vdRead E no).str.getD "").data, i := skipWs s j }
  else if E.encCode = UTF8code ∧ c.toNat = E.textMarker then
    next { st with eng := ¬st.eng, i := st.i + 1 }
  else if c = '\n' ∨ c = Char.ofNat 0 then .ok st
  else
    let i₁ := st.i + 1
    let wa := if st.waitAt = none ∧ ¬st.eng ∧ (c = '@' ∨ c = '\\') then some i₁
      else st.waitAt
    let st' := { st with b := st.b ++ [c], i := i₁, waitAt := wa }
    if i₁ < n ∧ getC s i₁ = ';' then .ok st'
    else next st'

/-- One iteration of the `while i < n` text loop of `_next_token`
(level `f + 1`; `next` is the loop at level `f`).  Branches, in source
order: two-byte lead, Ponscripter caret handling, the non-expand
accumulation, and the expand-mode accumulation. -/
def textStep (E : Env) (f : Nat) (next : TextSt → Except LexErr TextSt) (st : TextSt) :
    Except LexErr TextSt :=
  let s := E.s
  let n := s.length
  if st.i ≥ n then .ok st
  else
    let c := getC s st.i
    let nb := encBytes E c
    if nb ≥ 2 then textTwoByte E next st
    else if E.pons ∧ c = '^' then textPons E next st
    else if ¬E.expandInText then textPlain E next st
    else textExpand E f next st

/-- The text loop at each fuel level (plain `Nat.rec`; every iteration
advances the cursor, so the official fuel of `bigFuel` never runs
out). -/
def textFns (E : Env) (fuel : Nat) : TextSt → Except LexErr TextSt :=
  Nat.rec (fun _ => .error .fuelOut) (fun f prev => textStep E f prev) fuel

def textLoopF (E : Env) (fuel : Nat) (st : TextSt) : Except LexErr TextSt :=
  textFns E fuel st

/-- The comment scan of `_next_token`: everything up to and including
the newline. -/
def takeThroughNl : List Char → List Char
  | [] => []
  | c :: r => if c = '\n' then [c] else c :: takeThroughNl r

/-- `Lexer._read_label_name`. -/
def readLabelName (E : Env) (i : Nat) : String :=
  let j := skipWs E.s (i + 1)
  String.mk ('*' :: ((E.s.drop j).takeWhile (fun c => isId c)).map lowerC)

/-- `Lexer._after_label`. -/
def afterLabel (E : Env) (i : Nat) : Nat :=
  let j := skipWs E.s (i + 1)
  j + ((E.s.drop j).takeWhile (fun c => isAlnumU c)).length

/-- Everything `_next_token` returns and mutates: the token plus the new
cursor, line, `wait_at`, `text_mode` and Ponscripter color. -/
structure CoreOut where
  tok : Token
  i : Nat
  line : Nat
  waitAt : Option Nat
  textMode : Bool
  curColor : Option Nat
  deriving Repr, DecidableEq

/-- `Lexer._next_token` as a function of the buffer environment, the
cursor, the line counter and the carried-over `text_mode` /
`cur_color` (the source resets `self.end` and `self.wait_at` on entry,
so those two are not inputs). -/
def nextTokCore (E : Env) (fuel : Nat) (i0 line0 : Nat) (tm : Bool) (cc : Option Nat) :
    Except LexErr CoreOut :=
  let s := E.s
  let n := s.length
  if i0 ≥ n then
    .ok { tok := { kind := "eof", text := "", pos := i0, line := line0 }, i := i0,
          line := line0, waitAt := none, textMode := tm, curColor := cc }
  else
    let i := skipWs s i0
    if i ≥ n then
      .ok { tok := { kind := "eof", text := "", pos := i, line := line0 }, i := i,
            line := line0, waitAt := none, textMode := tm, curColor := cc }
    else
      let ch := getC s i
      if ch = ';' ∨ (startsWithAt s i "langjp".data ∧ E.lang = 0) ∨
          (startsWithAt s i "langen".data ∧ E.lang = 1) then
        let taken := takeThroughNl (s.drop i)
        let line' := if taken.getLastD (Char.ofNat 0) = '\n' then line0 + 1 else line0
        .ok { tok := { kind := "comment", text := String.mk taken, pos := i, line := line0 },
              i := i + taken.length, line := line', waitAt := none, textMode := tm,
              curColor := cc }
      else if ch = '*' then
        let ec := eatComma E (afterLabel E i) 0
        .ok { tok := { kind := "label", text := readLabelName E i, pos := i, line := line0,
                         endf := ec.2 },
              i := ec.1, line := line0, waitAt := none, textMode := tm, curColor := cc }
      else if ch = '~' ∨ ch = ':' then
        .ok { tok := { kind := "mark", text := String.mk [ch], pos := i, line := line0 },
              i := i + 1, line := line0, waitAt := none, textMode := tm, curColor := cc }
      else if ch = '\n' then
        .ok { tok := { kind := "nl", text := "\n", pos := i, line := line0 },
              i := i + 1, line := line0 + 1, waitAt := none, textMode := tm, curColor := cc }
      else if isId0 ch then
        let idc := (s.drop i).takeWhile (fun c => isId c)
        let ec := eatComma E (i + idc.length) 0
        .ok { tok := { kind := "cmd", text := String.mk (idc.map lowerC), pos := i,
                         line := line0, endf := ec.2 },
              i := ec.1, line := line0, waitAt := none, textMode := tm, curColor := cc }
      else
        match textLoopF E fuel { i := i, b := [], tokColor := cc, curColor := cc,
                                 waitAt := none, eng := false } with
        | .error e => .error e
        | .ok st =>
          let ec := eatComma E st.i 0
          .ok { tok := { kind := "text", text := String.mk st.b, pos := st.i, line := line0,
                           endf := ec.2, waitAt := st.waitAt, color := st.tokColor },
                i := ec.1, line := line0, waitAt := st.waitAt, textMode := true,
                curColor := st.curColor }

/-- `Lexer.next` / `_next_token` on the lexer state. -/
def Lexer.nextTok (lx : Lexer) : Except LexErr (Token × Lexer) :=
  match nextTokCore lx.env (bigFuel lx.env) lx.i lx.line lx.textMode lx.curColor with
  | .error e => .error e
  | .ok o =>
    .ok (o.tok, { lx with i := o.i, line := o.line, endf := o.tok.endf, waitAt := o.waitAt,
                          textMode := o.textMode, curColor := o.curColor })

/-- `Lexer.peek`: save `(i, line, end)`, tokenize, restore. -/
def Lexer.peek (lx : Lexer) : Except LexErr (Token × Lexer) :=
  match lx.nextTok with
  | .error e => .error e
  | .ok (t, lx') => .ok (t, { lx' with i := lx.i, line := lx.line, endf := lx.endf })

/-- The Ponscripter scenario's lexer: the source line
`^~c3~red^@^^~c0~plain` with Ponscripter mode active. -/
def c4lex : Lexer := { env := { s := "^~c3~red^@^^~c0~plain\n".data, pons := true } }

/-- The first token of `c4lex` and the lexer state after it. -/
def c4res : Token × Lexer := (c4lex.nextTok).toOption.getD (default, default)

/-- The text-loop observables that the peek/next law compares: cursor,
collected text, wait position and `eng` — everything except the two
color fields. -/
def stripText (r : Except LexErr TextSt) :
    Except LexErr (Nat × List Char × Option Nat × Bool) :=
  r.map (fun st => (st.i, st.b, st.waitAt, st.eng))

/-- The `_next_token` observables that do not depend on the carried-over
`text_mode`/`cur_color`: the token's kind, text, pos, line, end flags
and wait position, plus the new cursor, line and `wait_at`. -/
def stripCore (r : Except LexErr CoreOut) :
    Except LexErr (String × String × Nat × Nat × Nat × Option Nat × Nat × Nat × Option Nat) :=
  r.map (fun o => (o.tok.kind, o.tok.text, o.tok.pos, o.tok.line, o.tok.endf,
    o.tok.waitAt, o.i, o.line, o.waitAt))

/-- A small lexer for witnessing the peek/next law. -/
def c8lex : Lexer := mkLexer "ab cd\n"

/-- `peek()` on `c8lex`. -/
def c8p : Token × Lexer := (c8lex.peek).toOption.getD (default, default)

/-- `next()` after the peek. -/
def c8n : Token × Lexer := ((c8p.2).nextTok).toOption.getD (default, default)

/-- A lexer as `open` leaves it for `var_range = 4` (dense vector sized
to the range), used to witness the variable-store claims. -/
def c10lex : Lexer := { env := { varRng := 4, vars := List.replicate 4 default } }

/-! ## nslex.py — script container loading (`Lexer._load`, `Lexer.open`)

A directory is a listing of file names with their raw bytes;
`fsFind` plays `os.path.exists` plus `open(p, "rb")` reading the whole
file. -/

def fsFind (fs : List (String × List Nat)) (name : String) : Option (List Nat) :=
  (fs.find? (fun e => e.1 == name)).map (fun e => e.2)

/-- The rotating key of `read_one` mode 2 (`nscr_sec.dat`). -/
def magicTbl : List Nat := [0x79, 0x57, 0x0D, 0x80, 0x04]

/-- The per-byte transform of `read_one`: mode 1 XORs `0x84`, mode 2
XORs the rotating magic, mode 3 maps through `keytbl` — the identity
table `bytes(range(256))` set in `__init__` — and then XORs `0x84`;
mode 0 is the identity. -/
def xform (em mc b : Nat) : Nat :=
  if em = 1 then (b ^^^ 0x84) % 256
  else if em = 2 then (b ^^^ magicTbl.getD mc 0) % 256
  else if em = 3 then (b % 256 ^^^ 0x84) % 256
  else b

/-- The mutable state of `read_one`'s byte loop: magic counter, output
bytes, start-of-line flag, pending-CR flag, fresh-label flag and the
label count (`self.num_labels`, which `_index_labels` overwrites
later). -/
structure ReadSt where
  mc : Nat := 0
  out : List Nat := []
  nl : Bool := true
  cr : Bool := false
  newlab : Bool := false
  nlabs : Nat := 0
  deriving Repr, DecidableEq, Inhabited

/-- One byte of `read_one`'s loop: transform, flush a pending CR as LF,
count a `*` that opens a line, then emit (CR pends, LF emits LF,
anything else emits itself and clears the line-start flag unless it is
a space or tab). -/
def readStep (em : Nat) (st : ReadSt) (b0 : Nat) : ReadSt :=
  let b := xform em st.mc b0
  let st1 : ReadSt := { st with mc := if em = 2 then (st.mc + 1) % 5 else st.mc }
  let st2 : ReadSt :=
    if st1.cr ∧ b ≠ 0x0A then
      { st1 with out := st1.out ++ [0x0A], nl := true, cr := false }
    else st1
  let st3 : ReadSt :=
    if b = 42 ∧ st2.nl ∧ ¬st2.newlab then
      { st2 with nlabs := st2.nlabs + 1, newlab := true }
    else { st2 with newlab := false }
  if b = 0x0D then { st3 with cr := true }
  else if b = 0x0A then { st3 with out := st3.out ++ [0x0A], nl := true, cr := false }
  else { st3 with out := st3.out ++ [b],
                  nl := if b ≠ 32 ∧ b ≠ 9 then false else st3.nl }

/-- `read_one(fh, em)` (chunking is irrelevant at the byte level):
run the loop, flush a trailing CR, append the final LF. -/
def readOne (em : Nat) (bs : List Nat) : List Nat :=
  let st := bs.foldl (readStep em) {}
  (if st.cr then st.out ++ [0x0A] else st.out) ++ [0x0A]

/-- `_load`'s candidate list: `(name, mode, sets-utf8)`. -/
def tries : List (String × Nat × Bool) :=
  [("0.txt", 0, false), ("0.utf", 0, true), ("00.txt", 0, false),
   ("nscr_sec.dat", 2, false), ("nscript.___", 3, false),
   ("nscript.dat", 1, false), ("pscript.dat", 1, true)]

/-- The discovery loop: first entry of `tries` that exists. -/
def findBase (fs : List (String × List Nat)) : Option (String × Nat × Bool) :=
  tries.find? (fun t => (fsFind fs t.1).isSome)

/-- `os.path.splitext(found_path)[1]` with `_load`'s `".txt"` default
when the suffix is empty: the part from the last dot on. -/
def extOfName (name : String) : String :=
  match afterLastDot name.data with
  | none => ".txt"
  | some t => String.mk ('.' :: t)

/-- `f"{i}"` for `1 ≤ i ≤ 99`. -/
def natName (i : Nat) : String :=
  if i < 10 then String.mk [digitC i]
  else String.mk [digitC (i / 10), digitC (i % 10)]

/-- `f"{i:02d}"` for `1 ≤ i ≤ 99`. -/
def natName2 (i : Nat) : String :=
  if i < 10 then String.mk ['0', digitC i]
  else String.mk [digitC (i / 10), digitC (i % 10)]

/-- The probe order of the numbered-series loop: for each `i` in
`1..99`, both `f"{i}{ext}"` and `f"{i:02d}{ext}"` (for `i ≥ 10` the two
patterns coincide, so a file that exists is loaded twice, exactly as in
the source). -/
def numberedNames (ext : String) : List String :=
  (List.range' 1 99).flatMap (fun i => [natName i ++ ext, natName2 i ++ ext])

/-- `_load` at the byte level (the `b"".join(bufs)` handed to the
decoder): a mode `> 0` container is read alone; in mode 0 the base file
is closed unread, the numbered series is collected, and the base file
is read only as a fallback when the series is empty.  `none` is the
`-1` failure return. -/
def loadBytes (fs : List (String × List Nat)) : Option (List Nat) :=
  match findBase fs with
  | none => none
  | some (name, m, _) =>
    if m > 0 then (fsFind fs name).map (fun bs => readOne m bs)
    else
      let ext := extOfName name
      let bufs := (numberedNames ext).filterMap
        (fun nm => (fsFind fs nm).map (fun bs => readOne 0 bs))
      if bufs.isEmpty then (fsFind fs name).map (fun bs => readOne 0 bs)
      else some bufs.flatten

/-- `data.decode("cp932", "ignore")` (and `"utf-8"`) restricted to
buffers whose bytes are all below `0x80`, where both codecs are the
identity on code points; every container in this development is pure
ASCII. -/
def decodeAscii (bs : List Nat) : List Char := bs.map Char.ofNat

/-- The config values `_read_cfg` mutates on the lexer. -/
structure Cfg where
  varRng : Nat := 4096
  glob : Nat := 200
  sw : Nat := 640
  sh : Nat := 480
  deriving Repr, DecidableEq, Inhabited

/-- `_read_cfg`'s local `num(j)`: skip blanks, accumulate digits. -/
def cfgNum (s : List Char) (j0 : Nat) : Nat × Nat :=
  let j := skipWs s j0
  (digitsVal (s.drop j) 0, j + countDigits (s.drop j))

/-- `while i < n and s[i] in ", \t": i += 1` of the `s` branch. -/
def commaWsSkip (s : List Char) (i : Nat) : Nat :=
  i + ((s.drop i).takeWhile (fun c => c = ',' ∨ c = ' ' ∨ c = '\t')).length

/-- The loop tail of `_read_cfg` (`i = skip_ws…; if not cfg and s[i] != ","
: break; if s[i] == ",": i += 1`).  The two `s[i]` reads are unguarded in
the source; `ok none` is the `break`. -/
def cfgTail (s : List Char) (cfg : Bool) (i0 : Nat) : Except LexErr (Option Nat) :=
  let i := skipWs s i0
  if h : i < s.length then
    let ci := s.get ⟨i, h⟩
    if ¬cfg ∧ ci ≠ ',' then .ok none
    else .ok (some (if ci = ',' then i + 1 else i))
  else .error .indexError

/-- The dispatch loop of `_read_cfg`.  Each branch yields either a
`break` carrying the values set so far (`ok none`) or the next cursor;
the `elif s[i] …` reads after an unmatched `mode` fail with
`indexError` when `skip_ws` ran off the end, as in the source. -/
def cfgLoop (s : List Char) (cfg : Bool) : Nat → Nat → Cfg → Except LexErr Cfg
  | 0, _, _ => .error .fuelOut
  | fuel + 1, i0, c0 =>
    let n := s.length
    if ¬(i0 < n ∧ getC s i0 ≠ '\n') then .ok c0
    else
      let i := skipWs s i0
      let branch : Except LexErr (Option Nat × Cfg) :=
        if startsWithAt s i "mode".data then
          let i := i + 4
          if startsWithAt s i "800".data then
            .ok (some (i + 3), { c0 with sw := 800, sh := 600 })
          else if startsWithAt s i "400".data then
            .ok (some (i + 3), { c0 with sw := 400, sh := 300 })
          else if startsWithAt s i "320".data then
            .ok (some (i + 3), { c0 with sw := 320, sh := 240 })
          else if startsWithAt s i "w720".data then
            .ok (some (i + 4), { c0 with sw := 1280, sh := 720 })
          else .ok (none, c0)
        else if h : i < n then
          let ci := s.get ⟨i, h⟩
          if ci = 'g' ∨ ci = 'G' ∨ startsWithAt s i "value".data then
            let p := cfgNum s (if ci = 'g' ∨ ci = 'G' then i + 1 else i + 5)
            .ok (some p.2, { c0 with glob := p.1 })
          else if ci = 'v' ∨ ci = 'V' then
            let p := cfgNum s (i + 1)
            .ok (some p.2, { c0 with varRng := p.1 })
          else if ci = 's' ∨ ci = 'S' then
            let p := cfgNum s (i + 1)
            let q := cfgNum s (commaWsSkip s p.2)
            .ok (some q.2, { c0 with sw := p.1, sh := q.1 })
          else if ci = 'l' ∨ ci = 'L' then
            let p := cfgNum s (i + 1)
            .ok (some p.2, c0)
          else if ci ≠ ',' then .ok (none, c0)
          else .ok (some i, c0)
        else .error .indexError
      match branch with
      | .error e => .error e
      | .ok (none, c1) => .ok c1
      | .ok (some i1, c1) =>
        match cfgTail s cfg i1 with
        | .error e => .error e
        | .ok none => .ok c1
        | .ok (some i2) => cfgLoop s cfg fuel i2 c1

/-- `Lexer._read_cfg`: reset `var_rng`/`glob_border`, scan to the first
`;`, consume the rest of that line, honour a leading `$`, then run the
dispatch loop on the config line.  Every non-breaking iteration
advances the cursor, so `s.length + 2` fuel never runs out. -/
def readCfg (s : List Char) (sw0 sh0 : Nat) : Except LexErr Cfg :=
  let c0 : Cfg := { varRng := 4096, glob := 200, sw := sw0, sh := sh0 }
  let n := s.length
  let i1 := (s.takeWhile (fun c => c ≠ ';')).length
  let i2 := i1 + ((s.drop i1).takeWhile (fun c => c ≠ '\n')).length
  if i2 ≥ n then .ok c0
  else
    let i3 := skipWs s (i2 + 1)
    let cfg := decide (i3 < n ∧ getC s i3 = '$')
    cfgLoop s cfg (n + 2) (if cfg then i3 + 1 else i3) c0

/-- `name[1:]` of `_read_label_name`: the lowercased identifier after
the `*`. -/
def labelNamePart (s : List Char) (i : Nat) : String :=
  String.mk (((s.drop (skipWs s (i + 1))).takeWhile (fun c => isId c)).map lowerC)

/-- `cur.lines += 1` on the most recently appended label. -/
def bumpLast : List Label → List Label
  | [] => []
  | [l] => [{ l with lines := l.lines + 1 }]
  | a :: r => a :: bumpLast r

/-- The loop of `_index_labels`: collapse a `*` run to its last star,
record the label (body position after the label token, its optional
newline and blanks), otherwise count the line against the current label
and skip it.  `cur` is non-`None` exactly when a label has been
recorded, i.e. when the accumulator is nonempty. -/
def idxLoop (s : List Char) : Nat → Nat → Nat → List Label → Except LexErr (List Label)
  | 0, _, _, _ => .error .fuelOut
  | fuel + 1, i0, line, labs =>
    let n := s.length
    if i0 ≥ n then .ok labs
    else
      let i1 := skipWs s i0
      if i1 < n ∧ getC s i1 = '*' then
        let i := i1 + ((s.drop (i1 + 1)).takeWhile (fun c => c = '*')).length
        let nm := labelNamePart s i
        let j0 := afterLabel { s := s } i
        let jl := if j0 < n ∧ getC s j0 = '\n' then (j0 + 1, line + 1) else (j0, line)
        let j := skipWs s jl.1
        let li : Label := { name := nm, hdr := i, start := (j : Int), sline := line,
                            lines := 1 }
        idxLoop s fuel j jl.2 (labs ++ [li])
      else
        let labs1 := if labs.isEmpty then labs else bumpLast labs
        let i2 := i1 + ((s.drop i1).takeWhile (fun c => c ≠ '\n')).length
        if i2 < n then idxLoop s fuel (i2 + 1) (line + 1) labs1
        else idxLoop s fuel i2 line labs1

/-- `Lexer._index_labels`: run the loop, append the `start = -1`
sentinel, and set `num_labels` to the count without the sentinel. -/
def indexLabels (s : List Char) : Except LexErr (List Label × Nat) :=
  (idxLoop s (s.length + 3) 0 0 []).map (fun labs =>
    (labs ++ [({ start := (-1 : Int) } : Label)], labs.length))

/-- `Lexer._line_at`: newlines before `pos`. -/
def lineAt (s : List Char) (pos : Nat) : Nat :=
  ((s.take pos).filter (fun c => c = '\n')).length

/-- `Lexer.seek`. -/
def Lexer.seek (lx : Lexer) (pos : Nat) : Lexer :=
  { lx with i := pos, line := lineAt lx.env.s pos, endf := 0 }

/-- `pat in s` of the Ponscripter sniff. -/
def hasSub (s pat : List Char) : Bool :=
  (List.range (s.length + 1)).any (fun i => startsWithAt s i pat)

/-- `Lexer.open`: load, read the config, allocate the dense variable
vector, sniff for Ponscripter markers, index the labels and seek 0.
`ok none` is the `-1` failure return. -/
def openLex (fs : List (String × List Nat)) : Except LexErr (Option Lexer) :=
  match findBase fs, loadBytes fs with
  | some (_, _, utf), some data =>
    let buf := decodeAscii data
    match readCfg buf 640 480 with
    | .error e => .error e
    | .ok cfg =>
      let pons := hasSub buf "^@^".data || hasSub (buf.map lowerC) "^~c".data
      match indexLabels buf with
      | .error e => .error e
      | .ok li =>
        .ok (some { env := { s := buf,
                             encCode := if utf then UTF8code else CP932code,
                             varRng := cfg.varRng,
                             vars := List.replicate cfg.varRng default,
                             pons := pons },
                    i := 0, line := lineAt buf 0, endf := 0,
                    labels := li.1, numLabels := li.2,
                    sw := cfg.sw, sh := cfg.sh, globBorder := cfg.glob })
  | _, _ => .ok none

/-! ## Concrete inputs for the loader claims -/

/-- The plaintext behind the C1 container. -/
def c1src : String := ";mode800,g300,v1000\n*A\nhi\n"

/-- A directory holding only `nscript.dat`, the `0x84` XOR of the
plaintext. -/
def c1fs : List (String × List Nat) :=
  [("nscript.dat", c1src.data.map (fun c => c.toNat ^^^ 0x84))]

/-- The lexer `open` builds from that directory. -/
def c1lex : Lexer := ((openLex c1fs).toOption.getD none).getD default

/-- The token obtained after seeking to the recorded label body. -/
def c1tok : Token :=
  (((c1lex.seek 23).nextTok).toOption.map (fun r => r.1)).getD default

/-- Base file plus one numbered file. -/
def c2fs0 : List (String × List Nat) := [("0.txt", [65]), ("1.txt", [66])]

/-- Base file alone. -/
def c2fsBase : List (String × List Nat) := [("0.txt", [65])]

/-- Base plus `01.txt` and `2.txt`, to watch the probe order. -/
def c2fsOrd : List (String × List Nat) :=
  [("0.txt", [65]), ("2.txt", [67]), ("01.txt", [66])]

theorem lzssCopy_spec (cnt idx offset : Nat) (ring : List Nat)
    (bufpos outSize : Nat) (out : List Nat) (h : out.length < outSize) :
    (lzssCopy (cnt + 1) idx offset ring bufpos outSize out).2.2.length ≤ outSize ∧
      out.length < (lzssCopy (cnt + 1) idx offset ring bufpos outSize out).2.2.length := by
  induction cnt generalizing idx ring bufpos out with
  | zero =>
    simp only [lzssCopy]
    split
    · constructor
      · simp only [List.length_append, List.length_cons, List.length_nil]; omega
      · simp
    · constructor
      · simp only [List.length_append, List.length_cons, List.length_nil]; omega
      · simp
  | succ c ih =>
    rw [lzssCopy]
    split
    · constructor
      · simp only [List.length_append, List.length_cons, List.length_nil]; omega
      · simp
    · rename_i hlt
      have := ih (idx + 1) (ring.set bufpos (ring.getD ((offset + idx) % 256) 0))
        ((bufpos + 1) % 256) (out ++ [ring.getD ((offset + idx) % 256) 0])
        (by simp only [List.length_append, List.length_cons, List.length_nil] at hlt ⊢; omega)
      refine ⟨this.1, lt_of_le_of_lt ?_ this.2⟩
      simp

theorem lzssLoop_spec (fuel : Nat) (br : BitSt) (ring : List Nat)
    (bufpos outSize : Nat) (out : List Nat)
    (hle : out.length ≤ outSize) (hfuel : outSize - out.length ≤ fuel) :
    (lzssLoop fuel br ring bufpos outSize out).1.length = outSize ∨
      ((lzssLoop fuel br ring bufpos outSize out).1.length < outSize ∧
        (lzssLoop fuel br ring bufpos outSize out).2 = true) := by
  induction fuel generalizing br ring bufpos out with
  | zero =>
    simp only [lzssLoop]
    have : out.length = outSize := by omega
    simp [this]
  | succ f ih =>
    rw [lzssLoop]
    split
    · left; show out.length = outSize; omega
    · rename_i hlt
      push_neg at hlt
      match hg : getBits br 1 with
      | .error e => right; exact ⟨hlt, rfl⟩
      | .ok (bit, br₁) =>
        simp only
        split
        · match hu : getU8 br₁ with
          | .error e => right; exact ⟨hlt, rfl⟩
          | .ok (ch, br₂) =>
            simp only
            exact ih br₂ (ring.set bufpos ch) ((bufpos + 1) % 256)
              (out ++ [ch]) (by simp; omega) (by simp; omega)
        · match hu : getU8 br₁ with
          | .error e => right; exact ⟨hlt, rfl⟩
          | .ok (offset, br₂) =>
            simp only
            match hb : getBits br₂ 4 with
            | .error e => right; exact ⟨hlt, rfl⟩
            | .ok (nn, br₃) =>
              simp only
              have hcs := lzssCopy_spec (nn + 1) 0 offset ring bufpos outSize out hlt
              match hc : lzssCopy (nn + 2) 0 offset ring bufpos outSize out with
              | (ring', bufpos', out') =>
                rw [hc] at hcs
                simp only at hcs ⊢
                exact ih br₃ ring' bufpos' out' hcs.1 (by omega)
/-- C5.  `lzss_decompress` decodes with the 256-byte zero-initialised
ring and cursor 239, literals on flag bit 1 and `(offset, n+2)`
back-references on flag bit 0 (all of which is the definition of
`lzssLoop`/`lzss_decompress` above); the returned output has length
exactly the target size, and a shorter output occurs only when the bit
reader signalled end-of-data. -/
theorem c5_lzss_size (data : List Nat) (outSize startOffset : Nat) :
    (lzss_decompress data outSize startOffset).1.length = outSize ∨
      ((lzss_decompress data outSize startOffset).1.length < outSize ∧
        (lzss_decompress data outSize startOffset).2 = true) :=
  lzssLoop_spec outSize (mkBR data startOffset) (List.replicate 256 0) 239 outSize []
    (Nat.zero_le _) (by simp)

/-- C7 counterexample.  The claim asserts a 60-byte BMP with pixel data
`FF FF FF FF FF FF 00 00`.  On the stated payload the decoder actually
produces a 62-byte BMP (54-byte header + one 8-byte padded row — the
spec's own parenthetical `54 + 8` already says 62), and because the bit
reader is continuous across planes the second and third planes decode to
`07 06`, not `FF FF`. -/
theorem c7_spb_2x1_counterexample :
    ¬ (c7bmp.length = 60 ∧
      c7bmp.drop 54 = [0xFF, 0xFF, 0xFF, 0xFF, 0xFF, 0xFF, 0x00, 0x00]) := by
  decide

/-- C7 amended.  `spb_to_bmp` on the payload
`00 02 00 01 FF 00 FF 00 FF 00` succeeds and returns a 62-byte BMP
(`BM` magic) whose pixel data bytes (offset 54 onward) are
`07 07 FF 06 06 FF 00 00`: the first plane (blue) decodes to `FF FF`,
while the continuing bitstream makes the green and red planes decode to
`07 06` each. -/
theorem c7_spb_2x1_amended :
    (spb_to_bmp c7payload "zigzag" "bgr").toOption.isSome = true ∧
      c7bmp.length = 62 ∧ c7bmp.take 2 = [0x42, 0x4D] ∧
      c7bmp.drop 54 = [0x07, 0x07, 0xFF, 0x06, 0x06, 0xFF, 0x00, 0x00] := by
  decide

/-- C3.  With `spb_mode = "copy"`, a `.bmp` entry whose directory flag is
1 bypasses the policy check entirely: `process_file_bytes` converts the
SPB payload and returns the converted bytes for writing with status
`spb_converted_flag`, contradicting the claim (and the tool's own help
text, "copy: never convert SPB; keep original bytes").  The policy is
honored only on the flag-less path, where `detect_and_process_bmp`
returns `spb_skip_policy`. -/
theorem c3_spb_copy_policy_bug :
    c3result.2.2 = "spb_converted_flag" ∧ c3result.2.1 = true ∧
      c3result.1 = some c7bmp ∧
      (detect_and_process_bmp noBz2 c7payload 62 "copy" false false
        "zigzag" "bgr").2 = "spb_skip_policy" := by
  decide

/-! ### Expression evaluator claims -/

/-- C6.  `* / mod` bind strictly tighter than `+ -` (shown for all
single-digit operands), unary minus binds tighter than both
(`-a+b = (-a)+b`, not `-(a+b)`), division and modulo by zero yield 0,
and the four concrete `read_int` scenarios evaluate as claimed. -/
theorem c6_expression_precedence :
    (∀ a : Int, calcOp a DIV 0 = 0 ∧ calcOp a MOD 0 = 0) ∧
      readIntVal (mkLexer "2+3*4") = some 14 ∧
      readIntVal (mkLexer "2*3+4") = some 10 ∧
      readIntVal (mkLexer "(2+3)*4") = some 20 ∧
      readIntVal (mkLexer "-2+3") = some 1 ∧
      readIntVal (mkLexer "10 mod 3") = some 1 ∧
      readIntVal (mkLexer "10/0") = some 0 ∧
      readIntVal (mkLexer "10 mod 0") = some 0 := by
  refine ⟨fun a => ⟨?_, ?_⟩, by decide, by decide, by decide,
    by decide, by decide, by decide, by decide⟩
  · simp [calcOp, PLUS, MINUS, MULT, DIV, MOD]
  · simp [calcOp, PLUS, MINUS, MULT, DIV, MOD]

/-! ### Whitespace-run lemmas for the IndexError claim -/

theorem countWs_eq_length {l : List Char} (h : ∀ c ∈ l, c = ' ' ∨ c = '\t') :
    countWs l = l.length := by
  induction l with
  | nil => rfl
  | cons c r ih =>
    have hc := h c (List.mem_cons_self c r)
    have hr := ih (fun x hx => h x (List.mem_cons_of_mem c hx))
    rcases hc with hc | hc <;> simp [countWs, hc, hr]

theorem skipWs_ge_of_all (s : List Char) (i : Nat)
    (h : ∀ c ∈ s.drop i, c = ' ' ∨ c = '\t') : s.length ≤ skipWs s i := by
  have := countWs_eq_length h
  simp only [skipWs, this, List.length_drop]
  omega

theorem skipWs_of_ge (s : List Char) (i : Nat) (h : s.length ≤ i) : skipWs s i = i := by
  have : s.drop i = [] := List.drop_eq_nil_of_le h
  simp [skipWs, this, countWs]

theorem intAtF_oob (E : Env) (f i : Nat) (h : E.s.length ≤ i) :
    intAtF E (f + 1) i = .error .indexError := by
  show (parseStep E (parseFns E f)).intAt i = _
  simp only [parseStep]
  rw [skipWs_of_ge E.s i h]
  rw [if_pos (by omega : i ≥ E.s.length)]

theorem readNumF_oob (E : Env) (f i0 : Nat) (h : E.s.length ≤ skipWs E.s i0) :
    readNumF E (f + 2) i0 = .error .indexError := by
  have h1 : ¬(skipWs E.s i0 < E.s.length ∧ getC E.s (skipWs E.s i0) = '-') :=
    fun hc => absurd hc.1 (by omega)
  have h2 : ¬(skipWs E.s i0 < E.s.length ∧ getC E.s (skipWs E.s i0) = '(') :=
    fun hc => absurd hc.1 (by omega)
  have hin : intAtF E (f + 1) (skipWs E.s i0) = .error .indexError := intAtF_oob E f _ h
  show (parseStep E (parseFns E (f + 1))).readNum i0 = _
  simp only [parseStep, if_neg h1, if_neg h2]
  rw [show (parseFns E (f + 1)).intAt (skipWs E.s i0) = .error .indexError from hin]

theorem exprF_oob (E : Env) (f i : Nat) (h : E.s.length ≤ skipWs E.s i) :
    exprF E (f + 3) i = .error .indexError := by
  have hrn : readNumF E (f + 2) i = .error .indexError := readNumF_oob E f i h
  show (parseStep E (parseFns E (f + 2))).expr i = _
  simp only [parseStep]
  rw [show (parseFns E (f + 2)).readNum i = .error .indexError from hrn]

/-- C9.  When everything from the cursor to the end of the buffer is
spaces and tabs (in particular when the cursor is at the end),
`read_int` does not return a value: `_int_at` reads `s[i]` one past the
end and the `IndexError` propagates out of `read_int` uncaught. -/
theorem c9_read_int_index_error (lx : Lexer)
    (hws : ∀ c ∈ lx.env.s.drop lx.i, c = ' ' ∨ c = '\t') :
    lx.readInt = .error LexErr.indexError := by
  have hn : lx.env.s.length ≤ skipWs lx.env.s lx.i := skipWs_ge_of_all _ _ hws
  obtain ⟨m, hm⟩ : ∃ m, bigFuel lx.env = m + 3 :=
    ⟨8 * (lx.env.s.length + 2) + 5, by unfold bigFuel; omega⟩
  unfold Lexer.readInt
  rw [hm, exprF_oob lx.env m lx.i hn]

/-- C9 witness: `read_int` on the empty buffer raises `IndexError`. -/
theorem c9_read_int_index_error_witness :
    (mkLexer "").readInt = .error LexErr.indexError :=
  c9_read_int_index_error (mkLexer "") (by intro c hc; simp [mkLexer] at hc)

/-! ### Variable-store lemmas and the negative-index claim -/

theorem findExt_append {α : Type} (l l₂ : List α) (p : α → Bool)
    (h : l.find? p = none) : (l ++ l₂).find? p = l₂.find? p := by
  induction l with
  | nil => rfl
  | cons q r ih =>
    rw [List.find?] at h
    cases hq : p q with
    | true => rw [hq] at h; simp at h
    | false =>
      rw [hq] at h
      rw [List.cons_append, List.find?, hq]
      exact ih h

theorem extReplace_append (l : List (Int × Var)) (no : Int) (d w : Var)
    (h : l.find? (fun q => q.1 == no) = none) :
    extReplace (l ++ [(no, d)]) no w = l ++ [(no, w)] := by
  induction l with
  | nil => simp [extReplace]
  | cons q r ih =>
    rw [List.find?] at h
    cases hq : (q.1 == no) with
    | true => rw [hq] at h; simp at h
    | false =>
      rw [hq] at h
      simp only [List.cons_append, extReplace, hq, Bool.false_eq_true, if_false]
      show q :: extReplace (r ++ [(no, d)]) no w = q :: (r ++ [(no, w)])
      rw [ih h]

/-- C10.  `_vd` resolves every integer `no` to a slot without error:
`0 ≤ no < var_range` reads the dense vector without touching the state,
while any other `no` — negative ones included — gets a fresh default
slot in the sparse `ext` map, and `set_num` followed by a read on such a
fresh (unclamped) slot returns the stored value. -/
theorem c10_negative_variable_slots (lx : Lexer) (no no' v : Int)
    (hout : ¬(0 ≤ no ∧ no < (lx.env.varRng : Int)))
    (hfresh : lx.env.ext.find? (fun p => p.1 == no) = none)
    (hin : 0 ≤ no' ∧ no' < (lx.env.varRng : Int)) :
    ((lx.vd no').1 = lx.env.vars.getD no'.toNat default ∧ (lx.vd no').2 = lx) ∧
      (lx.vd no).1 = (default : Var) ∧
      (lx.vd no).2.env.ext.find? (fun p => p.1 == no) = some (no, (default : Var)) ∧
      ((lx.setNum no v).vd no).1.num = v := by
  have hvd : lx.vd no = ((default : Var),
      { lx with env := { lx.env with ext := lx.env.ext ++ [(no, (default : Var))] } }) := by
    rw [Lexer.vd, if_neg hout, hfresh]
  have hlim : (default : Var).lim = false := rfl
  refine ⟨⟨?_, ?_⟩, ?_, ?_, ?_⟩
  · rw [Lexer.vd, if_pos hin]
  · rw [Lexer.vd, if_pos hin]
  · rw [hvd]
  · rw [hvd]
    show ((lx.env.ext ++ [(no, (default : Var))]).find? (fun p => p.1 == no)) =
      some (no, (default : Var))
    rw [findExt_append _ _ _ hfresh]
    simp [List.find?]
  · have hset : lx.setNum no v = { lx with env := { lx.env with
        ext := lx.env.ext ++ [(no, { (default : Var) with num := v })] } } := by
      rw [Lexer.setNum, hvd]
      simp only [hlim, Bool.false_eq_true, false_and, if_false]
      rw [if_neg (by simpa using hout)]
      rw [extReplace_append _ _ _ _ hfresh]
    have hfind : (lx.setNum no v).env.ext.find? (fun p => p.1 == no) =
        some (no, { (default : Var) with num := v }) := by
      rw [hset]
      show ((lx.env.ext ++ [(no, { (default : Var) with num := v })]).find?
        (fun p => p.1 == no)) = some (no, { (default : Var) with num := v })
      rw [findExt_append _ _ _ hfresh]
      simp [List.find?]
    have hout' : ¬(0 ≤ no ∧ no < (((lx.setNum no v).env.varRng : Nat) : Int)) := by
      rw [hset]; simpa using hout
    rw [Lexer.vd, if_neg hout', hfind]

/-- C10 witness: on a freshly opened lexer with `var_range = 4`, slot 0
reads densely and statelessly, `%-5` style negative numbers get a fresh
sparse slot, and `set_num(-5, 7)` read back gives 7. -/
theorem c10_negative_variable_slots_witness :
    ((c10lex.vd 0).1 = c10lex.env.vars.getD (0 : Int).toNat default ∧
        (c10lex.vd 0).2 = c10lex) ∧
      (c10lex.vd (-5)).1 = (default : Var) ∧
      (c10lex.vd (-5)).2.env.ext.find? (fun p => p.1 == (-5 : Int)) =
        some (-5, (default : Var)) ∧
      ((c10lex.setNum (-5) 7).vd (-5)).1.num = 7 :=
  c10_negative_variable_slots c10lex (-5) 0 7 (by decide) (by decide) (by decide)

/-! ### Ponscripter coloring claim -/

/-- C4 counterexample.  The claim says the source line yields two
consecutive TEXT tokens, the first with text `"red@"`.  The tokenizer
never splits a text token at a mid-token `^~cX~`: the single first TEXT
token has text `"red@plain"`, so no token with text `"red@"` exists. -/
theorem c4_ponscripter_counterexample :
    c4res.1.kind = "text" ∧ c4res.1.text = "red@plain" ∧ ¬(c4res.1.text = "red@") := by
  decide

/-- C4 amended.  With Ponscripter mode active, tokenizing
`^~c3~red^@^^~c0~plain` yields a single TEXT token with text
`"red@plain"`, `color = 3` (the color entering before any text byte),
`wait_at = 11` (just past the `^@^` sequence), and the mid-token
`^~c0~` sets the persisting current color to 0 for subsequent text
tokens instead of starting a new token. -/
theorem c4_ponscripter_amended :
    (c4lex.nextTok).toOption.isSome = true ∧
      c4res.1.kind = "text" ∧ c4res.1.text = "red@plain" ∧
      c4res.1.color = some 3 ∧ c4res.1.waitAt = some 11 ∧
      c4res.2.curColor = some 0 := by
  decide

/-! ### Peek/next lemmas: the tokenizer's non-color observables do not
depend on the carried-over `text_mode` and `cur_color` -/

theorem textTwoByte_indep (E : Env) (next₁ next₂ : TextSt → Except LexErr TextSt)
    (hnext : ∀ s₁ s₂ : TextSt, s₁.i = s₂.i → s₁.b = s₂.b → s₁.waitAt = s₂.waitAt →
      s₁.eng = s₂.eng → stripText (next₁ s₁) = stripText (next₂ s₂))
    (s₁ s₂ : TextSt) (hi : s₁.i = s₂.i) (hb : s₁.b = s₂.b) (hw : s₁.waitAt = s₂.waitAt)
    (he : s₁.eng = s₂.eng) :
    stripText (textTwoByte E next₁ s₁) = stripText (textTwoByte E next₂ s₂) := by
  obtain ⟨i₁, b₁, tc₁, cc₁, wa₁, e₁⟩ := s₁
  obtain ⟨i₂, b₂, tc₂, cc₂, wa₂, e₂⟩ := s₂
  simp only at hi hb hw he
  subst hi; subst hb; subst hw; subst he
  simp only [textTwoByte]
  cases htb : twoByteAdv E b₁ i₁ with
  | mk b₂ i₂ =>
    simp only [htb]
    apply hnext <;> rfl

theorem textPons_indep (E : Env) (next₁ next₂ : TextSt → Except LexErr TextSt)
    (hnext : ∀ s₁ s₂ : TextSt, s₁.i = s₂.i → s₁.b = s₂.b → s₁.waitAt = s₂.waitAt →
      s₁.eng = s₂.eng → stripText (next₁ s₁) = stripText (next₂ s₂))
    (s₁ s₂ : TextSt) (hi : s₁.i = s₂.i) (hb : s₁.b = s₂.b) (hw : s₁.waitAt = s₂.waitAt)
    (he : s₁.eng = s₂.eng) :
    stripText (textPons E next₁ s₁) = stripText (textPons E next₂ s₂) := by
  obtain ⟨i₁, b₁, tc₁, cc₁, wa₁, e₁⟩ := s₁
  obtain ⟨i₂, b₂, tc₂, cc₂, wa₂, e₂⟩ := s₂
  simp only at hi hb hw he
  subst hi; subst hb; subst hw; subst he
  simp only [textPons]
  split
  · apply hnext <;> rfl
  split
  · apply hnext <;> rfl
  · apply hnext <;> rfl

theorem textPlain_indep (E : Env) (next₁ next₂ : TextSt → Except LexErr TextSt)
    (hnext : ∀ s₁ s₂ : TextSt, s₁.i = s₂.i → s₁.b = s₂.b → s₁.waitAt = s₂.waitAt →
      s₁.eng = s₂.eng → stripText (next₁ s₁) = stripText (next₂ s₂))
    (s₁ s₂ : TextSt) (hi : s₁.i = s₂.i) (hb : s₁.b = s₂.b) (hw : s₁.waitAt = s₂.waitAt)
    (he : s₁.eng = s₂.eng) :
    stripText (textPlain E next₁ s₁) = stripText (textPlain E next₂ s₂) := by
  obtain ⟨i₁, b₁, tc₁, cc₁, wa₁, e₁⟩ := s₁
  obtain ⟨i₂, b₂, tc₂, cc₂, wa₂, e₂⟩ := s₂
  simp only at hi hb hw he
  subst hi; subst hb; subst hw; subst he
  simp only [textPlain]
  split
  · rfl
  split
  · rfl
  · apply hnext <;> rfl

theorem textExpand_indep (E : Env) (f : Nat) (next₁ next₂ : TextSt → Except LexErr TextSt)
    (hnext : ∀ s₁ s₂ : TextSt, s₁.i = s₂.i → s₁.b = s₂.b → s₁.waitAt = s₂.waitAt →
      s₁.eng = s₂.eng → stripText (next₁ s₁) = stripText (next₂ s₂))
    (s₁ s₂ : TextSt) (hi : s₁.i = s₂.i) (hb : s₁.b = s₂.b) (hw : s₁.waitAt = s₂.waitAt)
    (he : s₁.eng = s₂.eng) :
    stripText (textExpand E f next₁ s₁) = stripText (textExpand E f next₂ s₂) := by
  obtain ⟨i₁, b₁, tc₁, cc₁, wa₁, e₁⟩ := s₁
  obtain ⟨i₂, b₂, tc₂, cc₂, wa₂, e₂⟩ := s₂
  simp only at hi hb hw he
  subst hi; subst hb; subst hw; subst he
  simp only [textExpand]
  split
  · cases hia : intAtF E f i₁ with
    | error e => simp only [hia]
    | ok vj =>
      obtain ⟨v, j⟩ := vj
      simp only [hia]
      apply hnext <;> rfl
  split
  · cases hir : intRaw E (i₁ + 1) with
    | mk no j =>
      simp only [hir]
      apply hnext <;> rfl
  split
  · apply hnext <;> rfl
  split
  · rfl
  split
  · rfl
  · apply hnext <;> rfl

theorem textStep_indep (E : Env) (f : Nat)
    (next₁ next₂ : TextSt → Except LexErr TextSt)
    (hnext : ∀ s₁ s₂ : TextSt, s₁.i = s₂.i → s₁.b = s₂.b → s₁.waitAt = s₂.waitAt →
      s₁.eng = s₂.eng → stripText (next₁ s₁) = stripText (next₂ s₂))
    (s₁ s₂ : TextSt) (hi : s₁.i = s₂.i) (hb : s₁.b = s₂.b) (hw : s₁.waitAt = s₂.waitAt)
    (he : s₁.eng = s₂.eng) :
    stripText (textStep E f next₁ s₁) = stripText (textStep E f next₂ s₂) := by
  obtain ⟨i₁, b₁, tc₁, cc₁, wa₁, e₁⟩ := s₁
  obtain ⟨i₂, b₂, tc₂, cc₂, wa₂, e₂⟩ := s₂
  simp only at hi hb hw he
  subst hi; subst hb; subst hw; subst he
  simp only [textStep]
  split
  · rfl
  split
  · exact textTwoByte_indep E next₁ next₂ hnext _ _ rfl rfl rfl rfl
  split
  · exact textPons_indep E next₁ next₂ hnext _ _ rfl rfl rfl rfl
  split
  · exact textPlain_indep E next₁ next₂ hnext _ _ rfl rfl rfl rfl
  · exact textExpand_indep E f next₁ next₂ hnext _ _ rfl rfl rfl rfl

theorem textFns_indep (E : Env) (fuel : Nat) :
    ∀ s₁ s₂ : TextSt, s₁.i = s₂.i → s₁.b = s₂.b → s₁.waitAt = s₂.waitAt →
      s₁.eng = s₂.eng → stripText (textFns E fuel s₁) = stripText (textFns E fuel s₂) := by
  induction fuel with
  | zero => intros s₁ s₂ hi hb hw he; rfl
  | succ f ih =>
    intro s₁ s₂ hi hb hw he
    exact textStep_indep E f (textFns E f) (textFns E f) ih s₁ s₂ hi hb hw he

theorem nextTokCore_indep (E : Env) (fuel i0 line0 : Nat) (tm₁ tm₂ : Bool)
    (cc₁ cc₂ : Option Nat) :
    stripCore (nextTokCore E fuel i0 line0 tm₁ cc₁) =
      stripCore (nextTokCore E fuel i0 line0 tm₂ cc₂) := by
  have htext : stripText (textLoopF E fuel
        { i := skipWs E.s i0, b := [], tokColor := cc₁, curColor := cc₁, waitAt := none,
          eng := false }) =
      stripText (textLoopF E fuel
        { i := skipWs E.s i0, b := [], tokColor := cc₂, curColor := cc₂, waitAt := none,
          eng := false }) :=
    textFns_indep E fuel _ _ rfl rfl rfl rfl
  simp only [nextTokCore]
  split
  · rfl
  split
  · rfl
  split
  · rfl
  split
  · rfl
  split
  · rfl
  split
  · rfl
  split
  · rfl
  cases h₁ : textLoopF E fuel { i := skipWs E.s i0, b := [], tokColor := cc₁,
                                curColor := cc₁, waitAt := none, eng := false } with
  | error e₁ =>
    cases h₂ : textLoopF E fuel { i := skipWs E.s i0, b := [], tokColor := cc₂,
                                  curColor := cc₂, waitAt := none, eng := false } with
    | error e₂ =>
      rw [h₁, h₂] at htext
      simp only [stripText, Except.map, Except.error.injEq] at htext
      subst htext
      rfl
    | ok st₂ =>
      rw [h₁, h₂] at htext
      simp [stripText, Except.map] at htext
  | ok st₁ =>
    cases h₂ : textLoopF E fuel { i := skipWs E.s i0, b := [], tokColor := cc₂,
                                  curColor := cc₂, waitAt := none, eng := false } with
    | error e₂ =>
      rw [h₁, h₂] at htext
      simp [stripText, Except.map] at htext
    | ok st₂ =>
      rw [h₁, h₂] at htext
      simp only [stripText, Except.map, Except.ok.injEq, Prod.mk.injEq] at htext
      obtain ⟨hi₃, hb₃, hw₃, he₃⟩ := htext
      simp only [stripCore, Except.map, hi₃, hb₃, hw₃]

/-- C8.  For every lexer state, `peek()` leaves the cursor, line
counter and end flags unchanged, and the `next()` that follows a
`peek()` returns a token whose `kind`, `text`, `pos` and `line` equal
those of the token a single `next()` from the same state returns (the
peeked token, since `peek` runs `_next_token` on the same state; only
the Ponscripter color field can differ, which the claim does not
compare). -/
theorem c8_peek_next (lx : Lexer) (t₁ t₂ : Token) (lx₁ lx₂ : Lexer)
    (hp : lx.peek = .ok (t₁, lx₁)) (hn : lx₁.nextTok = .ok (t₂, lx₂)) :
    (lx₁.i = lx.i ∧ lx₁.line = lx.line ∧ lx₁.endf = lx.endf) ∧
      (lx.nextTok).toOption.map (fun r => r.1) = some t₁ ∧
      (t₂.kind = t₁.kind ∧ t₂.text = t₁.text ∧ t₂.pos = t₁.pos ∧ t₂.line = t₁.line) := by
  rw [Lexer.peek] at hp
  cases hnx : lx.nextTok with
  | error e =>
    rw [hnx] at hp
    exact absurd hp (by simp)
  | ok p =>
    obtain ⟨t, lxA⟩ := p
    rw [hnx] at hp
    simp only [Except.ok.injEq, Prod.mk.injEq] at hp
    obtain ⟨ht, hlx₁⟩ := hp
    subst ht
    subst hlx₁
    rw [Lexer.nextTok] at hnx
    cases hcore : nextTokCore lx.env (bigFuel lx.env) lx.i lx.line lx.textMode lx.curColor with
    | error e =>
      rw [hcore] at hnx
      simp at hnx
    | ok o =>
      rw [hcore] at hnx
      simp only [Except.ok.injEq, Prod.mk.injEq] at hnx
      obtain ⟨hto, hlxA⟩ := hnx
      subst hto
      subst hlxA
      refine ⟨⟨rfl, rfl, rfl⟩, ?_, ?_⟩
      · rfl
      · have hind := nextTokCore_indep lx.env (bigFuel lx.env) lx.i lx.line o.textMode
          lx.textMode o.curColor lx.curColor
        rw [hcore] at hind
        rw [Lexer.nextTok] at hn
        dsimp only at hn
        cases hcor2 : nextTokCore lx.env (bigFuel lx.env) lx.i lx.line o.textMode
            o.curColor with
        | error e2 =>
          rw [hcor2] at hn
          simp at hn
        | ok o₂ =>
          rw [hcor2] at hind
          simp only [stripCore, Except.map, Except.ok.injEq, Prod.mk.injEq] at hind
          rw [hcor2] at hn
          simp only [Except.ok.injEq, Prod.mk.injEq] at hn
          obtain ⟨hto₂, hlx₂⟩ := hn
          subst hto₂
          obtain ⟨hk, htx, hps, hln, _⟩ := hind
          exact ⟨hk, htx, hps, hln⟩

/-- C8 witness: on the buffer `"ab cd\n"`, `peek` then `next` matches
the single `next` on kind, text, pos and line, and `peek` preserves the
cursor, line and end flags. -/
theorem c8_peek_next_witness :
    (c8p.2.i = c8lex.i ∧ c8p.2.line = c8lex.line ∧ c8p.2.endf = c8lex.endf) ∧
      (c8lex.nextTok).toOption.map (fun r => r.1) = some c8p.1 ∧
      (c8n.1.kind = c8p.1.kind ∧ c8n.1.text = c8p.1.text ∧ c8n.1.pos = c8p.1.pos ∧
        c8n.1.line = c8p.1.line) :=
  c8_peek_next c8lex c8p.1 c8n.1 c8p.2 c8n.2 (by rfl) (by rfl)

/-- C1 counterexample.  The claim's outcome does not hold: on the
XOR-0x84 `nscript.dat` whose plaintext is
`";mode800,g300,v1000\n*A\nhi\n"`, `open` does NOT set mode `(800,600)`,
`globals_border = 300` or `var_range = 1000`, and the token at the label
body is not a TEXT token — `_read_cfg` only parses the line after the
first `;` line's newline, so the `;` line's own content is skipped and
every config keeps its default, and `hi` lexes as a command word. -/
theorem c1_xor_load_counterexample :
    ¬ (c1lex.sw = 800 ∧ c1lex.sh = 600 ∧ c1lex.globBorder = 300 ∧
       c1lex.env.varRng = 1000 ∧ c1tok.kind = "text" ∧ c1tok.text = "hi") := by
  decide

/-- C1 amended.  What the loader actually yields on that container: the
buffer is the decoded plaintext plus the final appended LF, the config
stays at the defaults (`640×480`, `glob 200`, `var_rng 4096`), there is
exactly one label, named `a` with body position 23 (just after
`*A\n`), and tokenizing from there yields a CMD token `hi` at position
23, line 2. -/
theorem c1_xor_load_amended :
    c1lex.env.s = c1src.data ++ ['\n'] ∧
    c1lex.sw = 640 ∧ c1lex.sh = 480 ∧ c1lex.globBorder = 200 ∧
    c1lex.env.varRng = 4096 ∧ c1lex.numLabels = 1 ∧
    (c1lex.labels.headD default).name = "a" ∧
    (c1lex.labels.headD default).start = 23 ∧
    c1tok = { kind := "cmd", text := "hi", pos := 23, line := 2 } := by
  decide

/-- C2 counterexample.  With base `0.txt` (bytes `A`) and numbered
`1.txt` (bytes `B`), the loaded bytes are NOT the base's transformed
content followed by the numbered series: `_load` closes the base file
unread whenever a numbered segment exists. -/
theorem c2_plain_series_counterexample :
    ¬ loadBytes c2fs0 = some (readOne 0 [65] ++ readOne 0 [66]) := by
  decide

/-- C2 amended.  In plain-series mode the buffer is the concatenation of
the numbered files alone, probed in the order `1, 01, 2, 02, …, 99`;
the base file's content is loaded only when no numbered file exists. -/
theorem c2_plain_series_amended :
    loadBytes c2fs0 = some (readOne 0 [66]) ∧
    loadBytes c2fsBase = some (readOne 0 [65]) ∧
    loadBytes c2fsOrd = some (readOne 0 [66] ++ readOne 0 [67]) := by
  decide

end Nskit
